import Mathlib

/-!
# Status bot for a Day of Defeat: Source server — verification development

A shallow embedding of `src/index.js`: the console (RCON) text parser and its command loop
(`attemptRconFetch`), the status fetcher (`queryServerA2S`), the merge step of the command
handler and of the updater, the presenter (`buildEmbedFromResult`), the `server` command and
the start-up of the periodic updater (`startUpdater`).

JavaScript strings are modelled by `String` / `List Char`.  The regular expressions of the
program carry no `u` flag and mention only ASCII characters and `\s`, so matching code unit by
code unit and matching code point by code point give the same captures.

The libraries the program calls are collaborators whose outcomes are inputs of the model: the
query service and the console may reject with any value, `null` and `undefined` included, and
the message builder validates what it is given and may throw.
-/

namespace DodBot

/-! ## JavaScript strings and truthiness -/

/-- The double quote character. -/
def dq : Char := Char.ofNat 34

/-- The single quote character. -/
def sq : Char := Char.ofNat 39

/-- The class `\s` of an ECMAScript regular expression, which is also the set of characters
removed by `String.prototype.trim`: WhiteSpace (TAB, VT, FF, ZWNBSP and the Unicode space
separators) and LineTerminator (LF, CR, LS, PS). -/
def isWhiteSpace (c : Char) : Bool :=
  c.toNat == 0x09 || c.toNat == 0x0A || c.toNat == 0x0B || c.toNat == 0x0C ||
  c.toNat == 0x0D || c.toNat == 0x20 || c.toNat == 0xA0 || c.toNat == 0x1680 ||
  (0x2000 ≤ c.toNat && c.toNat ≤ 0x200A) || c.toNat == 0x2028 || c.toNat == 0x2029 ||
  c.toNat == 0x202F || c.toNat == 0x205F || c.toNat == 0x3000 || c.toNat == 0xFEFF

/-- The class `\d` (and `[0-9]`): the ten ASCII digits. -/
def isDigit (c : Char) : Bool := 48 ≤ c.toNat && c.toNat ≤ 57

/-- The result of `String.prototype.trim` on a list of characters. -/
def trim (s : List Char) : List Char :=
  ((s.dropWhile isWhiteSpace).reverse.dropWhile isWhiteSpace).reverse

/-- Truthiness of a string-valued property that may be undefined: a defined, non-empty string. -/
def truthy : Option String → Bool
  | some s => !s.data.isEmpty
  | none => false

/-- The value of `a || b` where `a` is a possibly undefined string and `b` a string. -/
def orStr (a : Option String) (b : String) : String :=
  match a with
  | some s => if s.data.isEmpty then b else s
  | none => b

/-- The value of `a || b` where both operands are possibly undefined strings. -/
def orOpt (a b : Option String) : Option String :=
  if truthy a then a else b

/-! ## Regular expressions

The patterns of `attemptRconFetch` use literals, character classes, alternation, one capture
group each, and the greedy quantifiers `*`, `+`, `?` applied to a single character class.  The
matcher below is the backtracking matcher of the language specification restricted to these
forms: continuations are tried in priority order (greedy repetition takes the longest run
first, the left alternative before the right one) and the first success wins. -/

/-- Regular expressions: the fragment used by the program. -/
inductive Re where
  | empty
  | chr (p : Char → Bool)
  | seq (a b : Re)
  | alt (a b : Re)
  | star (p : Char → Bool)
  | opt (p : Char → Bool)
  | group (r : Re)

/-- A match result: the text of capture group 1, if the group took part in the match. -/
abbrev Capture := Option (List Char)

/-- A matcher continuation: from the remaining input and the capture so far to the outcome. -/
abbrev Cont := List Char → Capture → Option Capture

/-- Greedy `p*`: take the longest run of characters in the class, giving characters back one
at a time while the continuation fails. -/
def starRun (p : Char → Bool) (k : Cont) : List Char → Capture → Option Capture
  | [], cap => k [] cap
  | c :: cs, cap =>
    if p c then
      match starRun p k cs cap with
      | some r => some r
      | none => k (c :: cs) cap
    else k (c :: cs) cap

/-- Run a pattern against the input with a continuation for what follows it. -/
def Re.run : Re → Cont → Cont
  | .empty, k => k
  | .chr p, k => fun s cap =>
    match s with
    | c :: cs => if p c then k cs cap else none
    | [] => none
  | .seq a b, k => a.run (b.run k)
  | .alt a b, k => fun s cap =>
    match a.run k s cap with
    | some r => some r
    | none => b.run k s cap
  | .star p, k => starRun p k
  | .opt p, k => fun s cap =>
    match s with
    | c :: cs =>
      if p c then
        match k cs cap with
        | some r => some r
        | none => k (c :: cs) cap
      else k (c :: cs) cap
    | [] => k [] cap
  | .group r, k => fun s cap =>
    r.run (fun rest _ => k rest (some (s.take (s.length - rest.length)))) s cap

/-- Try to match the pattern starting exactly at the head of the input. -/
def Re.matchAt (r : Re) (s : List Char) : Option Capture :=
  r.run (fun _ cap => some cap) s none

/-- The first match in the input, scanning start positions from left to right
(`RegExp.prototype.exec` from index 0, as used by `String.prototype.match` and `test`). -/
def Re.exec (r : Re) : List Char → Option Capture
  | [] => r.matchAt []
  | c :: cs =>
    match r.matchAt (c :: cs) with
    | some m => some m
    | none => r.exec cs

/-- A literal character under the `i` flag: an ASCII letter matches both of its cases, any
other character only itself. -/
def ci (c : Char) : Re := .chr (fun x => x == c.toLower || x == c.toUpper)

/-- A literal word under the `i` flag. -/
def word : List Char → Re
  | [] => .empty
  | c :: cs => .seq (ci c) (word cs)

/-- Greedy `p+`. -/
def plus (p : Char → Bool) : Re := .seq (.chr p) (.star p)

/-- Concatenation of a list of patterns. -/
def cat : List Re → Re
  | [] => .empty
  | r :: rs => .seq r (cat rs)

/-- The class `[^\s"']`. -/
def notSpaceQuote (c : Char) : Bool := !(isWhiteSpace c || c == dq || c == sq)

/-- The class `[^"\s]`. -/
def notDqSpace (c : Char) : Bool := !(c == dq || isWhiteSpace c)

/-- The class `[:\s]`. -/
def colonSpace (c : Char) : Bool := c == ':' || isWhiteSpace c

/-- The class `[\d:]`. -/
def digitColon (c : Char) : Bool := isDigit c || c == ':'

/-- The class `[:=]`. -/
def colonEq (c : Char) : Bool := c == ':' || c == '='

/-- The pattern `/Next\s+Map:\s*([^\s"']+)/i`. -/
def reNextMapColon : Re :=
  cat [word "Next".data, plus isWhiteSpace, word "Map:".data, .star isWhiteSpace,
    .group (plus notSpaceQuote)]

/-- The pattern `/"nextmap"\s+(?:is|=)\s+"?([^"\s]+)"?/i`. -/
def reNextmapCvar : Re :=
  cat [ci dq, word "nextmap".data, ci dq, plus isWhiteSpace,
    .alt (word "is".data) (word "=".data), plus isWhiteSpace, .opt (fun c => c == dq),
    .group (plus notDqSpace), .opt (fun c => c == dq)]

/-- The pattern `/Next\s+map\s+(?:set\s+to|is)\s*[:\s]*([^\s"']+)/i`. -/
def reNextMapIs : Re :=
  cat [word "Next".data, plus isWhiteSpace, word "map".data, plus isWhiteSpace,
    .alt (cat [word "set".data, plus isWhiteSpace, word "to".data]) (word "is".data),
    .star isWhiteSpace, .star colonSpace, .group (plus notSpaceQuote)]

/-- The pattern `/Time\s+Left[:\s]*([\d:]+)/i`. -/
def reTimeLeft : Re :=
  cat [word "Time".data, plus isWhiteSpace, word "Left".data, .star colonSpace,
    .group (plus digitColon)]

/-- The pattern `/timeleft[:\s]*([\d:]+)/i`. -/
def reTimeleft : Re :=
  cat [word "timeleft".data, .star colonSpace, .group (plus digitColon)]

/-- The pattern `/no\s+timelimit/i`. -/
def reNoTimelimit : Re :=
  cat [word "no".data, plus isWhiteSpace, word "timelimit".data]

/-- The pattern `/"mp_timelimit"\s*(?:=|:)\s*"?(?<mins>\d+)"?/i`. -/
def reMpTimelimitQuoted : Re :=
  cat [ci dq, word "mp_timelimit".data, ci dq, .star isWhiteSpace,
    .alt (word "=".data) (word ":".data), .star isWhiteSpace, .opt (fun c => c == dq),
    .group (plus isDigit), .opt (fun c => c == dq)]

/-- The pattern `/mp_timelimit\s*[:=]\s*([0-9]+)/i`. -/
def reMpTimelimitBare : Re :=
  cat [word "mp_timelimit".data, .star isWhiteSpace, .chr colonEq, .star isWhiteSpace,
    .group (plus isDigit)]

/-- The first capture group of the first match, as a string (`m[1]` when `m` is not null). -/
def capture1 (r : Re) (out : List Char) : Option String :=
  match r.exec out with
  | some (some cap) => some (String.mk cap)
  | _ => none

/-! ## Numbers

The program converts a run of ASCII digits with `Number(...)` and writes the result back into
a template string.  Only non-negative integers and `Infinity` can arise this way. -/

/-- A JavaScript number that is a non-negative integer-valued double, or `Infinity`. -/
inductive JSNum where
  | fin (n : Nat)
  | inf
  deriving DecidableEq, Repr

/-- The mathematical value of a run of ASCII digits. -/
def digitsValue (ds : List Char) : Nat :=
  ds.foldl (fun acc c => 10 * acc + (c.toNat - 48)) 0

/-- Number of binary digits of `n`, by `fuel` halvings. -/
def bitLen : Nat → Nat → Nat
  | 0, _ => 0
  | fuel + 1, n => if n = 0 then 0 else bitLen fuel (n / 2) + 1

/-- The double nearest to the integer `n` (round to nearest, ties to even; `Infinity` once the
rounded value reaches `2 ^ 1024`, that is, needs more than 1024 binary digits).  Integers below
`2 ^ 53` are exact. -/
def roundToDouble (n : Nat) : JSNum :=
  if n < 2 ^ 53 then .fin n
  else
    let e := bitLen n n - 53
    let q := n / 2 ^ e
    let r := n % 2 ^ e
    let half := 2 ^ (e - 1)
    let q1 := if half < r || (r == half && q % 2 == 1) then q + 1 else q
    if 1024 < bitLen (q1 * 2 ^ e) (q1 * 2 ^ e) then .inf else .fin (q1 * 2 ^ e)

/-- The value of `Number(s)` for a string `s` of ASCII digits. -/
def jsNumber (ds : List Char) : JSNum := roundToDouble (digitsValue ds)

/-- Distance between two naturals. -/
def natDist (a b : Nat) : Nat := if a ≤ b then b - a else a - b

/-- Decimal significands with `k` digits and decimal exponents `n` whose value
`s * 10 ^ (n - k)` reads back as the double `v` (which has `d` decimal digits). -/
def digitCandidates (v d k : Nat) : List (Nat × Nat) :=
  [d, d + 1].flatMap fun n =>
    [v / 10 ^ (n - k), v / 10 ^ (n - k) + 1].filterMap fun s =>
      if 10 ^ (k - 1) ≤ s && s < 10 ^ k && roundToDouble (s * 10 ^ (n - k)) == .fin v
      then some (s, n) else none

/-- Of two candidates with `k` digits, the one closer to `v`, the even significand on a tie. -/
def closer (v k : Nat) (a b : Nat × Nat) : Nat × Nat :=
  let da := natDist v (a.1 * 10 ^ (a.2 - k))
  let db := natDist v (b.1 * 10 ^ (b.2 - k))
  if db < da || (db == da && b.1 % 2 == 0 && a.1 % 2 == 1) then b else a

/-- The shortest significand `s` and exponent `n` of `Number::toString` for a double above
`2 ^ 53`: the least digit count for which a candidate exists, then the closest candidate. -/
def shortestDigits (v : Nat) : Nat × Nat :=
  let d := (Nat.toDigits 10 v).length
  let found := (List.range 17).filterMap fun i =>
    match digitCandidates v d (i + 1) with
    | [] => none
    | c :: cs => some (cs.foldl (closer v (i + 1)) c)
  found.headD (v, d)

/-- The text of `Number::toString` for a double above `2 ^ 53`: the shortest digits padded with
zeros below `10 ^ 21`, exponent form from there on. -/
def bigNumberToString (v : Nat) : String :=
  let sn := shortestDigits v
  let ds := Nat.toDigits 10 sn.1
  if sn.2 ≤ 21 then String.mk (ds ++ List.replicate (sn.2 - ds.length) '0')
  else
    match ds with
    | [] => ""
    | [c] => String.mk [c] ++ "e+" ++ Nat.repr (sn.2 - 1)
    | c :: cs => String.mk (c :: '.' :: cs) ++ "e+" ++ Nat.repr (sn.2 - 1)

/-- The text a number takes inside a template string (`Number::toString`, radix 10).  Up to
`2 ^ 53` every integer is its own shortest digit string. -/
def jsNumberToString : JSNum → String
  | .inf => "Infinity"
  | .fin v => if v ≤ 2 ^ 53 then Nat.repr v else bigNumberToString v

/-- The comparison `mins > 0`. -/
def JSNum.isPositive : JSNum → Bool
  | .inf => true
  | .fin v => 0 < v

/-! ## Console output parsing (`attemptRconFetch`, loop body) -/

/-- Console Info: the object `results` of `attemptRconFetch`. -/
structure ConsoleInfo where
  nextmap : Option String := none
  timeleft : Option String := none
  deriving DecidableEq, Repr

/-- One parsing rule for next-map: keep a value already found, else take the capture. -/
def tryNextmap (r : Re) (out : List Char) (results : ConsoleInfo) : ConsoleInfo :=
  if truthy results.nextmap then results
  else
    match r.exec out with
    | some cap => { results with nextmap := cap.map String.mk }
    | none => results

/-- The block `if (!results.nextmap) { ... }`: three patterns in order. -/
def parseNextmap (out : List Char) (results : ConsoleInfo) : ConsoleInfo :=
  if truthy results.nextmap then results
  else
    let r1 :=
      match reNextMapColon.exec out with
      | some cap => { results with nextmap := cap.map String.mk }
      | none => results
    tryNextmap reNextMapIs out (tryNextmap reNextmapCvar out r1)

/-- The value `mins > 0 ? mins + " minutes (timelimit)" : "No timelimit"`. -/
def timelimitText (mins : JSNum) : String :=
  if mins.isPositive then jsNumberToString mins ++ " minutes (timelimit)" else "No timelimit"

/-- The block `if (!results.timeleft) { const mpt = ...; if (...) {...} else {...} }`. -/
def parseMpTimelimit (out : List Char) (results : ConsoleInfo) : ConsoleInfo :=
  if truthy results.timeleft then results
  else
    match reMpTimelimitQuoted.exec out with
    | some (some (c :: cs)) =>
      { results with timeleft := some (timelimitText (jsNumber (c :: cs))) }
    | _ =>
      match reMpTimelimitBare.exec out with
      | some (some ds) => { results with timeleft := some (timelimitText (jsNumber ds)) }
      | some none => { results with timeleft := some "No timelimit" }
      | none => results

/-- One parsing rule for time-left: keep a value already found, else take the capture. -/
def tryTimeleft (r : Re) (out : List Char) (results : ConsoleInfo) : ConsoleInfo :=
  if truthy results.timeleft then results
  else
    match r.exec out with
    | some cap => { results with timeleft := cap.map String.mk }
    | none => results

/-- The block `if (!results.timeleft) { ... }`: two patterns, the "no timelimit" phrase, then
the `mp_timelimit` cvar. -/
def parseTimeleft (out : List Char) (results : ConsoleInfo) : ConsoleInfo :=
  if truthy results.timeleft then results
  else
    let r1 :=
      match reTimeLeft.exec out with
      | some cap => { results with timeleft := cap.map String.mk }
      | none => results
    let r2 := tryTimeleft reTimeleft out r1
    let r3 :=
      if !truthy r2.timeleft && (reNoTimelimit.exec out).isSome
      then { r2 with timeleft := some "No timelimit" } else r2
    parseMpTimelimit out r3

/-- Both fields found: the test `results.nextmap && results.timeleft`. -/
def ConsoleInfo.complete (results : ConsoleInfo) : Bool :=
  truthy results.nextmap && truthy results.timeleft

/-! ## Effects: exceptions and the trace of console operations -/

/-- A thrown JavaScript value: a `TypeError` raised by the language itself; a value thrown by a
collaborator (the query service, the console, the chat platform) of which `err.message`
(possibly undefined) and `String(err)` can be read, such as an `Error` or a string; a thrown
`null` or `undefined`, on which reading `err.message` itself raises a `TypeError`; or any other
value on which evaluating `err.message || String(err)` raises `raised` (an object without
string conversion, a throwing `message` getter). -/
inductive JSError where
  | typeError (message : String)
  | thrown (message : Option String) (text : String)
  | null
  | undefined
  | unreadable (raised : JSError)
  deriving DecidableEq, Repr

/-- An operation performed on the console session. -/
inductive Event where
  | sent (cmd : String)
  | ended
  deriving DecidableEq, Repr

/-- A computation that may throw and that appends to a trace of operations of type `ε`; the
trace survives an exception. -/
abbrev Eff (ε α : Type) := List ε → Except JSError α × List ε

/-- Return a value. -/
def Eff.pure {ε α : Type} (a : α) : Eff ε α := fun tr => (.ok a, tr)

/-- Sequencing: an exception in the first computation skips the second. -/
def Eff.bind {ε α β : Type} (x : Eff ε α) (f : α → Eff ε β) : Eff ε β := fun tr =>
  match x tr with
  | (.ok a, tr1) => f a tr1
  | (.error e, tr1) => (.error e, tr1)

/-- The statement `try { body } catch (e) { handler }`. -/
def Eff.tryCatch {ε α : Type} (body : Eff ε α) (handler : JSError → Eff ε α) : Eff ε α :=
  fun tr =>
    match body tr with
    | (.ok a, tr1) => (.ok a, tr1)
    | (.error e, tr1) => handler e tr1

/-- The statement `try { body } finally { fin }`: `fin` runs on both exits, and an exception
of `fin` replaces the outcome of `body`. -/
def Eff.tryFinally {ε α : Type} (body : Eff ε α) (fin : Eff ε Unit) : Eff ε α := fun tr =>
  match body tr with
  | (res, tr1) =>
    match fin tr1 with
    | (.ok _, tr2) => (res, tr2)
    | (.error e, tr2) => (.error e, tr2)

/-- An evaluation without operations that may raise. -/
def Eff.lift {ε α : Type} (x : Except JSError α) : Eff ε α := fun tr => (x, tr)

/-- Perform an operation with a given outcome, recording it in the trace. -/
def Eff.perform {ε α : Type} (ev : ε) (outcome : Except JSError α) : Eff ε α := fun tr =>
  (outcome, tr ++ [ev])

/-- Computations on the console: the trace lists the commands sent and the closing. -/
abbrev M (α : Type) := Eff Event α

/-- An open console session: the reply of `rcon.send(cmd)` (a rejection, or a value that is
`none` for `null`/`undefined` and a text otherwise), whether `rcon.end` is a function, and the
outcome of `rcon.end()`. -/
structure Session where
  send : String → Except JSError (Option String)
  endIsFunction : Bool
  endResult : Except JSError Unit

/-- The console section of the configuration (`CONFIG.rcon`), also the shape of the
`rconConfig` argument. -/
structure RconConfig where
  enabled : Bool := false
  host : Option String := none
  port : Option Nat := none
  password : Option String := none

/-- The export shape of the console library as seen by `attemptRconFetch`: not loaded, a
constructor with a static `connect`, a bare callable, or something else. -/
inductive RconLib where
  | missing
  | withConnect
  | callable
  | other
  deriving DecidableEq, Repr

/-- The surroundings of `attemptRconFetch`: `CONFIG.rcon`, the console library, and what
connecting with given host, port and password yields. -/
structure RconEnv where
  configRcon : Option RconConfig
  lib : RconLib
  connect : String → Nat → String → Except JSError Session

/-- The constant `tryCommands`. -/
def tryCommands : List String :=
  ["nextmap", "timeleft", "sm_cvar nextmap", "sm_cvar timeleft", "sm_cvar mp_nextmap",
   "sm_cvar mp_timelimit", "mp_nextmap", "mp_timelimit", "status"]

/-- The text `out`: `resp == null ? "" : String(resp).trim()`. -/
def responseText (resp : Option String) : List Char :=
  match resp with
  | none => []
  | some s => trim s.data

/-- The statements of the inner `try` after `out` is known; the flag is `true` when the loop
is left by `break`. -/
def processOutput (out : List Char) (results : ConsoleInfo) : ConsoleInfo × Bool :=
  if out.isEmpty then (results, false)
  else
    let r := parseTimeleft out (parseNextmap out results)
    (r, r.complete)

/-- One iteration of the loop: the inner `try { ... } catch (cmdErr) { }`. -/
def commandStep (rcon : Session) (cmd : String) (results : ConsoleInfo) :
    M (ConsoleInfo × Bool) :=
  Eff.tryCatch
    (Eff.bind (Eff.perform (.sent cmd) (rcon.send cmd)) fun resp =>
      Eff.pure (processOutput (responseText resp) results))
    (fun _ => Eff.pure (results, false))

/-- The loop `for (const cmd of tryCommands) { ... }` over the commands still to send. -/
def commandLoop (rcon : Session) : List String → ConsoleInfo → M ConsoleInfo
  | [], results => Eff.pure results
  | cmd :: rest, results =>
    Eff.bind (commandStep rcon cmd results) fun step =>
      if step.2 then Eff.pure step.1 else commandLoop rcon rest step.1

/-- The statement `try { if (rcon && typeof rcon.end === "function") await rcon.end(); }
catch {}`. -/
def closeSession (rcon : Session) : M Unit :=
  Eff.tryCatch
    (if rcon.endIsFunction then Eff.perform .ended rcon.endResult else Eff.pure ())
    (fun _ => Eff.pure ())

/-- The part of `attemptRconFetch` after the connection is established. -/
def runSession (rcon : Session) : M ConsoleInfo :=
  Eff.tryFinally (commandLoop rcon tryCommands {}) (closeSession rcon)

/-- The value `(rconConfig && rconConfig.f) || (CONFIG.rcon && CONFIG.rcon.f)` for a string
field. -/
def resolveStr (a b : Option String) : Option String :=
  match orOpt a b with
  | some s => if s.data.isEmpty then none else some s
  | none => none

/-- The value `(rconConfig && rconConfig.port) || (CONFIG.rcon && CONFIG.rcon.port)`, `none`
when falsy. -/
def resolvePort (a b : Option Nat) : Option Nat :=
  match a with
  | some (n + 1) => some (n + 1)
  | _ =>
    match b with
    | some (n + 1) => some (n + 1)
    | _ => none

/-- The function `attemptRconFetch`. -/
def attemptRconFetch (env : RconEnv) (rconConfig : Option RconConfig) : M ConsoleInfo :=
  let enabled := match env.configRcon with
    | some c => c.enabled
    | none => false
  if rconConfig.isNone && !enabled then Eff.pure {}
  else if env.lib == .missing then Eff.pure {}
  else
    let host := resolveStr (rconConfig.bind (·.host)) (env.configRcon.bind (·.host))
    let port := resolvePort (rconConfig.bind (·.port)) (env.configRcon.bind (·.port))
    let password := resolveStr (rconConfig.bind (·.password)) (env.configRcon.bind (·.password))
    match host, port, password with
    | some h, some p, some pw =>
      if env.lib == .other then Eff.pure {}
      else
        match env.connect h p pw with
        | .error _ => Eff.pure {}
        | .ok rcon => runSession rcon
    | _, _, _ => Eff.pure {}

/-! ## Status records, the query service and `queryServerA2S` -/

/-- The rules mapping: a JavaScript object with string values, as a list of entries.  A
property access is `lookup`; a missing key reads as `undefined`. -/
abbrev Rules := List (String × String)

/-- The `players` property: undefined, an array (of player names), or some value that is not
an array, of which only the truthiness matters. -/
inductive Players where
  | undefined
  | list (names : List String)
  | other (truthy : Bool)
  deriving DecidableEq, Repr

/-- The `raw` payload of a query result: its own `rules` property, if any, and its entries
read as a mapping. -/
structure RawPayload where
  rules : Option Rules := none
  entries : Rules := []
  deriving DecidableEq, Repr

/-- A resolved value of `gamedigQuery`. -/
structure QueryResult where
  name : Option String := none
  hostname : Option String := none
  map : Option String := none
  players : Players := .undefined
  maxplayers : Option Nat := none
  raw : Option RawPayload := none
  rules : Option Rules := none
  deriving DecidableEq, Repr

/-- Status Record: the object returned by `queryServerA2S`, later mutated by the merge step.
A property that is `none` is undefined (or null, for `maxplayers`). -/
structure StatusRecord where
  online : Bool
  error : Option String := none
  name : Option String := none
  map : Option String := none
  players : Players := .undefined
  maxplayers : Option Nat := none
  raw : Option RawPayload := none
  rules : Option Rules := none
  deriving DecidableEq, Repr

/-- The two queries of `queryServerA2S`: general info, and `queryType: "rules"`. -/
inductive QueryKind where
  | general
  | rules
  deriving DecidableEq, Repr

/-- Computations on the query service: the trace lists the queries issued. -/
abbrev Q (α : Type) := Eff QueryKind α

/-- The evaluation of `err.message || String(err)`: a string, or the error that the
evaluation raises (a `TypeError` for reading `message` of `null` or `undefined`). -/
def errorString : JSError → Except JSError String
  | .typeError message => .ok (if message.data.isEmpty then "TypeError" else message)
  | .thrown message text => .ok (orStr message text)
  | .null => .error (.typeError "Cannot read properties of null (reading 'message')")
  | .undefined => .error (.typeError "Cannot read properties of undefined (reading 'message')")
  | .unreadable raised => .error raised

/-- The rules mapping extracted from the reply to the rules query (lines 125–130). -/
def extractRules (rulesRes : QueryResult) : Rules :=
  match rulesRes.raw with
  | some raw =>
    match raw.rules with
    | some r => r
    | none => raw.entries
  | none =>
    match rulesRes.rules with
    | some r => r
    | none => []

/-- The value `a || []` for a `players` property. -/
def playersOrEmpty : Players → Players
  | .undefined => .list []
  | .list names => .list names
  | .other true => .other true
  | .other false => .list []

/-- The value `a || null` for a `maxplayers` property: zero is falsy. -/
def maxplayersOrNull : Option Nat → Option Nat
  | some (n + 1) => some (n + 1)
  | _ => none

/-- The function `queryServerA2S`; `query` is what `gamedigQuery` yields for the host and port
at hand.  The `catch` block evaluates `err.message || String(err)` outside any `try`, so what
that evaluation raises leaves the function. -/
def queryServerA2S (query : QueryKind → Except JSError QueryResult) : Q StatusRecord :=
  Eff.tryCatch
    (Eff.bind (Eff.perform .general (query .general)) fun res =>
      Eff.bind
        (Eff.tryCatch
          (Eff.bind (Eff.perform .rules (query .rules)) fun rulesRes =>
            Eff.pure (extractRules rulesRes))
          (fun _ => Eff.pure []))
        fun rules =>
          Eff.pure
            { online := true
              name := some (orStr (orOpt res.name res.hostname) "Unknown")
              map := some (orStr res.map "Unknown")
              players := playersOrEmpty res.players
              maxplayers := maxplayersOrNull res.maxplayers
              raw := some (res.raw.getD {})
              rules := some rules })
    (fun err =>
      Eff.bind (Eff.lift (errorString err)) fun message =>
        Eff.pure { online := false, error := some message })

/-! ## The merge step and the presenter -/

/-- The block `if (!res.online && (rconInfo.nextmap || rconInfo.timeleft)) { ... }` of the
command handler and of `updateOnce`. -/
def mergeStep (res : StatusRecord) (rconInfo : ConsoleInfo) : StatusRecord :=
  if !res.online && (truthy rconInfo.nextmap || truthy rconInfo.timeleft) then
    { res with
      online := true
      name := some (orStr res.name "Unknown (A2S failed)")
      map := some (orStr res.map "Unknown")
      players := playersOrEmpty res.players
      maxplayers := maxplayersOrNull res.maxplayers }
  else res

/-- One field of a presented message. -/
structure EmbedField where
  name : String
  value : String
  inline : Bool := false
  deriving DecidableEq, Repr

/-- Presented Message: the arguments of the calls on `EmbedBuilder` (`timestamp` tells that
`setTimestamp` was called). -/
structure Embed where
  title : String
  description : String
  color : Nat
  fields : List EmbedField
  footer : Option String := none
  timestamp : Bool := true
  deriving DecidableEq, Repr

/-- The validation done by the `EmbedBuilder` of the chat-platform library, which is not part
of the repository and is taken as a parameter: each setter either accepts its argument or
throws. -/
structure EmbedBuilder where
  setTitle : String → Except JSError Unit
  setDescription : String → Except JSError Unit
  setColor : Nat → Except JSError Unit
  addFields : List EmbedField → Except JSError Unit
  setFooter : String → Except JSError Unit

/-- The chain `new EmbedBuilder().setTitle(..).setDescription(..).setColor(..).addFields(..)`,
then `.setFooter(..)` when a footer is given, then `.setTimestamp()`: the first setter that
throws ends the chain with its exception, else the message is built. -/
def EmbedBuilder.build (b : EmbedBuilder) (e : Embed) : Except JSError Embed :=
  match b.setTitle e.title with
  | .error err => .error err
  | .ok _ =>
    match b.setDescription e.description with
    | .error err => .error err
    | .ok _ =>
      match b.setColor e.color with
      | .error err => .error err
      | .ok _ =>
        match b.addFields e.fields with
        | .error err => .error err
        | .ok _ =>
          match e.footer with
          | none => .ok e
          | some text =>
            match b.setFooter text with
            | .error err => .error err
            | .ok _ => .ok e

/-- The builder accepts every value of a message: no setter of the chain throws. -/
def EmbedBuilder.accepts (b : EmbedBuilder) (e : Embed) : Bool :=
  match b.build e with
  | .ok _ => true
  | .error _ => false

/-- The length of a JavaScript string: its number of UTF-16 code units. -/
def jsLength (s : String) : Nat :=
  s.data.foldl (fun n c => n + (if c.toNat < 0x10000 then 1 else 2)) 0

/-- The error a setter throws on a value outside its limits. -/
def validationError : JSError :=
  .thrown (some "Invalid string length") "Error: Invalid string length"

/-- A string of between one and `max` code units. -/
def withinLength (max : Nat) (s : String) : Except JSError Unit :=
  if 1 ≤ jsLength s && jsLength s ≤ max then .ok () else .error validationError

/-- The limits the library enforces on embeds (discord.js 14): title and field names of 1 to
256 code units, description of 1 to 4096, field values of 1 to 1024, footer text of 1 to 2048,
at most 25 fields, a colour of at most `0xFFFFFF`.  Used to instantiate the theorems, which
hold for every builder. -/
def discordBuilder : EmbedBuilder where
  setTitle := withinLength 256
  setDescription := withinLength 4096
  setColor := fun c => if c ≤ 0xFFFFFF then .ok () else .error validationError
  addFields := fun fields =>
    if fields.length ≤ 25 &&
        fields.all (fun f => jsLength f.name ≤ 256 && 1 ≤ jsLength f.name &&
          jsLength f.value ≤ 1024 && 1 ≤ jsLength f.value)
    then .ok () else .error validationError
  setFooter := withinLength 2048

/-- The constant `online` of `buildEmbedFromResult`:
`result.online || (rconInfo && (rconInfo.nextmap || rconInfo.timeleft || result.raw))`. -/
def upgradedOnline (result : StatusRecord) (rconInfo : ConsoleInfo) : Bool :=
  result.online || (truthy rconInfo.nextmap || truthy rconInfo.timeleft || result.raw.isSome)

/-- The constant `playerCount`. -/
def playerCount (result : StatusRecord) : String :=
  match result.players with
  | .list names =>
    Nat.repr names.length ++ "/" ++
      (match result.maxplayers with
       | some m => jsNumberToString (.fin m)
       | none => "??")
  | _ => "Unknown"

/-- The chain `result.rules.k || result.rules[k] || result.rules[k2] || "Unknown"`: reading a
property of an undefined `rules` raises a `TypeError`. -/
def rulesValue (rules : Option Rules) (k k2 : String) : Except JSError String :=
  match rules with
  | none => .error (.typeError ("Cannot read properties of undefined (reading '" ++ k ++ "')"))
  | some r => .ok (orStr (orOpt (r.lookup k) (orOpt (r.lookup k) (r.lookup k2))) "Unknown")

/-- The chain `fromConsole || result.rules.k || ... || "Unknown"`: the rules are read only
when the console value is falsy. -/
def displayValue (fromConsole : Option String) (rules : Option Rules) (k k2 : String) :
    Except JSError String :=
  match fromConsole with
  | some v => if v.data.isEmpty then rulesValue rules k k2 else .ok v
  | none => rulesValue rules k k2

/-- The text of `host:port` inside a template string. -/
def hostPort (host : String) (port : Nat) : String :=
  host ++ ":" ++ jsNumberToString (.fin port)

/-- The arguments given to the builder on the offline branch (lines 258–263). -/
def offlineEmbed (host : String) (port : Nat) (result : StatusRecord) : Embed :=
  { title := "Server: " ++ hostPort host port
    description := "Status: Offline or unreachable"
    color := 0xFF0000
    fields := [{ name := "Error", value := orStr result.error "Query failed" }] }

/-- The arguments given to the builder on the online branch (lines 270–281). -/
def onlineEmbed (host : String) (port : Nat) (result : StatusRecord)
    (nextMap timeLeft : String) : Embed :=
  { title := orStr result.name "Unknown Server"
    description := "Status: Online — " ++ hostPort host port
    color := 0x00FF00
    fields :=
      [{ name := "Current Map", value := orStr result.map "Unknown", inline := true },
       { name := "Next Map", value := nextMap, inline := true },
       { name := "Time Left", value := timeLeft, inline := true },
       { name := "Players", value := playerCount result, inline := true }]
    footer := some "Queried via A2S (gamedig) — RCON used if configured" }

/-- The function `buildEmbedFromResult`, with the builder of the library as `builder`.  On the
online branch the three constants of lines 266–268 are computed before any setter is called. -/
def buildEmbedFromResult (builder : EmbedBuilder) (host : String) (port : Nat)
    (result : StatusRecord) (rconInfo : ConsoleInfo) : Except JSError Embed :=
  if !upgradedOnline result rconInfo then builder.build (offlineEmbed host port result)
  else
    match displayValue rconInfo.nextmap result.rules "nextmap" "mp_nextmap" with
    | .error e => .error e
    | .ok nextMap =>
      match displayValue rconInfo.timeleft result.rules "timeleft" "mp_timelimit" with
      | .error e => .error e
      | .ok timeLeft => builder.build (onlineEmbed host port result nextMap timeLeft)

/-- The value of the field with a given name in a presented message. -/
def Embed.field (e : Embed) (name : String) : Option String :=
  (e.fields.find? (fun f => f.name == name)).map (·.value)

/-! ## The updater (`startUpdater`) -/

/-- A message on the channel: its id and the outcome of `msg.edit(...)`. -/
structure Message where
  id : String
  edit : Except JSError Unit

/-- The channel of the status message: `channel.messages.fetch(id).catch(() => null)` (`none`
when the fetch fails) and the outcome of `channel.send(...)`. -/
structure Channel where
  fetchMessage : String → Option Message
  send : Embed → Except JSError Message

/-- The section `CONFIG.updateMessage`. -/
structure UpdateMessageConfig where
  enabled : Bool := false
  channelId : Option String := none
  intervalSeconds : Option Nat := none
  messageId : Option String := none

/-- The section `CONFIG.defaultServer`. -/
structure ServerConfig where
  host : Option String := none
  port : Option Nat := none

/-- The configuration `CONFIG`. -/
structure Config where
  defaultServer : Option ServerConfig := none
  rcon : Option RconConfig := none
  updateMessage : Option UpdateMessageConfig := none

/-- The collaborators of the bot: the configuration, channel resolution
(`client.channels.fetch(id).catch(() => null)`), the query service per host and port, the
console library and its connections, and the message builder. -/
structure BotEnv where
  config : Config
  builder : EmbedBuilder
  fetchChannel : String → Option Channel
  query : String → Nat → QueryKind → Except JSError QueryResult
  rconLib : RconLib
  rconConnect : String → Nat → String → Except JSError Session

/-- The surroundings of `attemptRconFetch` within the bot. -/
def BotEnv.rconEnv (env : BotEnv) : RconEnv where
  configRcon := env.config.rcon
  lib := env.rconLib
  connect := env.rconConnect

/-- The state the updater works on: `STATE.messageId`, the `messageId` stored in the state
file, the message handle `msg`, the embeds sent as new messages and those written by edits,
and whether the periodic timer was set. -/
structure UpdaterState where
  messageId : Option String
  file : Option String
  msg : Option Message := none
  sent : List Embed := []
  edited : List Embed := []
  timer : Bool := false

/-- The value `a || b` for a port number: zero is falsy. -/
def orPort (a : Option Nat) (b : Nat) : Nat :=
  match a with
  | some (n + 1) => n + 1
  | _ => b

/-- Lines 336–351 of `startUpdater`: recover the message named by the persisted state, else
the one named by the configuration. -/
def recoverMessage (um : UpdateMessageConfig) (channel : Channel) (st : UpdaterState) :
    UpdaterState :=
  if truthy st.messageId then
    match channel.fetchMessage (st.messageId.getD "") with
    | some m => { st with msg := some m }
    | none => { st with messageId := none, file := none, msg := none }
  else if truthy um.messageId then
    match channel.fetchMessage (um.messageId.getD "") with
    | some m => { st with msg := some m, messageId := um.messageId, file := um.messageId }
    | none => { st with msg := none }
  else st

/-- The status record and console info of one update cycle (the head of `updateOnce`, up to
the merge step). -/
def fetchStatus (env : BotEnv) (host : String) (port : Nat) :
    Except JSError (StatusRecord × ConsoleInfo) :=
  match (queryServerA2S (env.query host port) []).1 with
  | .error e => .error e
  | .ok res =>
    match env.config.rcon with
    | some rc =>
      if rc.enabled then
        let rhost := orOpt rc.host (some host)
        let rport := orPort rc.port port
        if truthy rhost && rport != 0 && truthy rc.password then
          let rconf : RconConfig := { host := rhost, port := some rport, password := rc.password }
          match (attemptRconFetch env.rconEnv (some rconf) []).1 with
          | .error e => .error e
          | .ok rconInfo => .ok (mergeStep res rconInfo, rconInfo)
        else .ok (res, {})
      else .ok (res, {})
    | none => .ok (res, {})

/-- The `server` command of the `interactionCreate` handler, from the option values to the
message handed to `editReply`: fetch, enhance when console integration is enabled, merge,
present.  An exception leaves the handler. -/
def handleServerCommand (env : BotEnv) (ipOpt : Option String) (portOpt : Option Nat) :
    Except JSError Embed :=
  let host := orStr (orOpt ipOpt (env.config.defaultServer.bind (·.host))) "127.0.0.1"
  let port := orPort portOpt (orPort (env.config.defaultServer.bind (·.port)) 27015)
  match (queryServerA2S (env.query host port) []).1 with
  | .error e => .error e
  | .ok res =>
    match env.config.rcon with
    | some rc =>
      if rc.enabled then
        let rconf : RconConfig :=
          { host := orOpt rc.host (some host), port := some (orPort rc.port port),
            password := rc.password }
        match (attemptRconFetch env.rconEnv (some rconf) []).1 with
        | .error e => .error e
        | .ok rconInfo =>
          buildEmbedFromResult env.builder host port (mergeStep res rconInfo) rconInfo
      else buildEmbedFromResult env.builder host port res {}
    | none => buildEmbedFromResult env.builder host port res {}

/-- The closure `updateOnce`: fetch, merge, present, then post a new message or edit the
existing one inside `try { ... } catch (e) { console.error(...) }`. -/
def updateOnce (env : BotEnv) (channel : Channel) (st : UpdaterState) :
    Except JSError UpdaterState :=
  let host := orStr (env.config.defaultServer.bind (·.host)) "127.0.0.1"
  let port := orPort (env.config.defaultServer.bind (·.port)) 27015
  match fetchStatus env host port with
  | .error e => .error e
  | .ok (res, rconInfo) =>
    match buildEmbedFromResult env.builder host port res rconInfo with
    | .error e => .error e
    | .ok embed =>
      match st.msg with
      | none =>
        match channel.send embed with
        | .ok m =>
          .ok { st with msg := some m, messageId := some m.id, file := some m.id,
                        sent := st.sent ++ [embed] }
        | .error _ => .ok st
      | some m =>
        match m.edit with
        | .ok _ => .ok { st with edited := st.edited ++ [embed] }
        | .error _ => .ok st

/-- The function `startUpdater`: its guards, the recovery of the message, the first update
cycle, and the setting of the periodic timer. -/
def startUpdater (env : BotEnv) (st : UpdaterState) : Except JSError UpdaterState :=
  match env.config.updateMessage with
  | none => .ok st
  | some um =>
    if !um.enabled then .ok st
    else if !truthy um.channelId then .ok st
    else
      match env.fetchChannel (um.channelId.getD "") with
      | none => .ok st
      | some channel =>
        match updateOnce env channel (recoverMessage um channel st) with
        | .error e => .error e
        | .ok st1 => .ok { st1 with timer := true }

/-! ## Specification-side notions for the command loop -/

/-- The commands recorded as sent in a trace, in order. -/
def sentCommands (tr : List Event) : List String :=
  tr.filterMap fun ev =>
    match ev with
    | .sent cmd => some cmd
    | .ended => none

/-- What one command does to the results: nothing when `send` rejects, else the parse of the
response. -/
def responseUpdate (rcon : Session) (cmd : String) (results : ConsoleInfo) : ConsoleInfo :=
  match rcon.send cmd with
  | .error _ => results
  | .ok resp => (processOutput (responseText resp) results).1

/-- The results after the responses to a list of commands have been processed in order. -/
def resultsAfter (rcon : Session) (cmds : List String) (init : ConsoleInfo) : ConsoleInfo :=
  cmds.foldl (fun r c => responseUpdate rcon c r) init

/-- The console connection of a run of `attemptRconFetch` is established and yields the
session `rcon`: the guards pass, the library can connect, and connecting succeeds. -/
def Connects (env : RconEnv) (cfg : Option RconConfig) (rcon : Session) : Prop :=
  (cfg.isSome = true ∨ ∃ c, env.configRcon = some c ∧ c.enabled = true) ∧
  (env.lib = .withConnect ∨ env.lib = .callable) ∧
  ∃ h p pw,
    resolveStr (cfg.bind (·.host)) (env.configRcon.bind (·.host)) = some h ∧
    resolvePort (cfg.bind (·.port)) (env.configRcon.bind (·.port)) = some p ∧
    resolveStr (cfg.bind (·.password)) (env.configRcon.bind (·.password)) = some pw ∧
    env.connect h p pw = .ok rcon

/-! ## A concrete console, used to instantiate the theorems -/

/-- A console that answers `nextmap` with the next map, rejects `timeleft`, answers
`sm_cvar mp_timelimit` with the time limit, and answers nothing else; closing it fails. -/
def demoSession : Session where
  send := fun cmd =>
    if cmd == "nextmap" then .ok (some "\"nextmap\" is \"dod_anzio\"")
    else if cmd == "timeleft" then .error (.thrown (some "timed out") "Error: timed out")
    else if cmd == "sm_cvar mp_timelimit" then .ok (some "\"mp_timelimit\" = \"20\"")
    else .ok none
  endIsFunction := true
  endResult := .error (.thrown (some "socket closed") "Error: socket closed")

/-- Console integration enabled in the configuration, the library loaded, and every
connection attempt yielding `demoSession`. -/
def demoEnv : RconEnv where
  configRcon := some { enabled := true, host := some "10.0.0.1", port := some 27015,
                       password := some "secret" }
  lib := .withConnect
  connect := fun _ _ _ => .ok demoSession

/-- The first of a list of optional strings that is defined and not the empty string (the
values JavaScript treats as truthy), else the default: the precedence rule of the
specification with "present" read as "present and non-empty", written without reference to the
presenter. -/
def firstPresent : List (Option String) → String → String
  | [], dflt => dflt
  | none :: rest, dflt => firstPresent rest dflt
  | some s :: rest, dflt => if s = "" then firstPresent rest dflt else s

/-- The first of a list of optional strings that is defined, else the default: the precedence
rule of the specification with "present" read as "defined". -/
def firstDefined : List (Option String) → String → String
  | [], dflt => dflt
  | none :: rest, dflt => firstDefined rest dflt
  | some s :: _, _ => s

/-- An online record whose rules mapping holds an empty `nextmap` and a set `mp_nextmap`. -/
def emptyNextmapRecord : StatusRecord :=
  { online := true, name := some "DoD:S", map := some "dod_flash", players := .list [],
    maxplayers := some 24, raw := some {},
    rules := some [("nextmap", ""), ("mp_nextmap", "dod_anzio")] }

/-- An offline record whose error string is the empty string. -/
def emptyErrorRecord : StatusRecord := { online := false, error := some "" }

/-- A query service whose general reply carries a hostname and no name, and whose rules query
is rejected. -/
def hostnameOnlyQuery : QueryKind → Except JSError QueryResult
  | .general => .ok { hostname := some "DoD:S Server", map := some "dod_flash",
                      players := .list [], maxplayers := some 32 }
  | .rules => .error (.thrown (some "rules disabled") "Error: rules disabled")

/-- A failed primary fetch, as `queryServerA2S` returns it. -/
def failedFetch : StatusRecord := { online := false, error := some "timeout" }

/-- A Console Info carrying a next-map only. -/
def nextmapOnly : ConsoleInfo := { nextmap := some "dod_anzio" }

/-- A Console Info carrying a time-left only. -/
def timeleftOnly : ConsoleInfo := { timeleft := some "12:34" }

/-- An online record with three players, a capacity of 24 and a rules mapping. -/
def demoRecord : StatusRecord :=
  { online := true, name := some "DoD:S", map := some "dod_flash",
    players := .list ["a", "b", "c"], maxplayers := some 24, raw := some {},
    rules := some [("mp_timelimit", "20")] }

/-- A console that answers `mp_timelimit` with a limit of `2 ^ 53 + 1` minutes and answers
nothing else. -/
def bigLimitSession : Session where
  send := fun cmd =>
    if cmd == "mp_timelimit" then .ok (some "\"mp_timelimit\" = \"9007199254740993\"")
    else .ok none
  endIsFunction := true
  endResult := .ok ()

/-- Console integration enabled, every connection attempt yielding `bigLimitSession`. -/
def bigLimitEnv : RconEnv where
  configRcon := some { enabled := true, host := some "10.0.0.1", port := some 27015,
                       password := some "secret" }
  lib := .withConnect
  connect := fun _ _ _ => .ok bigLimitSession

/-- A console that answers `mp_timelimit` with a limit of zero and answers nothing else. -/
def zeroLimitSession : Session where
  send := fun cmd =>
    if cmd == "mp_timelimit" then .ok (some "\"mp_timelimit\" = \"0\"") else .ok none
  endIsFunction := true
  endResult := .ok ()

/-- Console integration enabled, every connection attempt yielding `zeroLimitSession`. -/
def zeroLimitEnv : RconEnv where
  configRcon := some { enabled := true, host := some "10.0.0.1", port := some 27015,
                       password := some "secret" }
  lib := .withConnect
  connect := fun _ _ _ => .ok zeroLimitSession

/-- A console that answers `nextmap` with the next map and answers nothing else. -/
def nextmapOnlySession : Session where
  send := fun cmd =>
    if cmd == "nextmap" then .ok (some "\"nextmap\" is \"dod_anzio\"") else .ok none
  endIsFunction := true
  endResult := .ok ()

/-- A channel on which no earlier message can be fetched and sending succeeds. -/
def staleChannel : Channel where
  fetchMessage := fun _ => none
  send := fun _ => .ok { id := "999", edit := .ok () }

/-- The update-message section used below. -/
def staleUpdateConfig : UpdateMessageConfig := { enabled := true, channelId := some "42" }

/-- A bot with a given message builder whose channel resolves to `staleChannel`, whose query
service is unreachable and whose console yields `nextmapOnlySession`. -/
def staleEnv (builder : EmbedBuilder) : BotEnv where
  builder := builder
  config :=
    { defaultServer := some { host := some "10.0.0.1", port := some 27015 }
      rcon := some { enabled := true, password := some "secret" }
      updateMessage := some staleUpdateConfig }
  fetchChannel := fun _ => some staleChannel
  query := fun _ _ _ => .error (.thrown (some "timeout") "Error: timeout")
  rconLib := .withConnect
  rconConnect := fun _ _ _ => .ok nextmapOnlySession

/-- A persisted state naming a message that no longer exists. -/
def staleState : UpdaterState := { messageId := some "111", file := some "111" }

/-- A host name of 300 characters, as the free-text `ip` option of the command may carry. -/
def longHost : String := String.mk (List.replicate 300 'a')

/-- An online record whose rules mapping holds a `nextmap` of 1025 characters. -/
def longNextmapRecord : StatusRecord :=
  { online := true, name := some "DoD:S", map := some "dod_flash", players := .list [],
    maxplayers := some 24, raw := some {},
    rules := some [("nextmap", String.mk (List.replicate 1025 'a'))] }

/-- An offline record that carries a raw payload and a rules mapping. -/
def rawOfflineRecord : StatusRecord :=
  { online := false, error := some "timeout", raw := some {}, rules := some [] }

/-- A query service whose general query rejects with `null`. -/
def nullRejectingQuery : QueryKind → Except JSError QueryResult := fun _ => .error .null

theorem attemptRconFetch_of_connects {env : RconEnv} {cfg : Option RconConfig} {rcon : Session}
    (h : Connects env cfg rcon) : attemptRconFetch env cfg = runSession rcon := by
  obtain ⟨hen, hlib, hh, hp, hpw, e1, e2, e3, e4⟩ := h
  unfold attemptRconFetch
  have g1 : (cfg.isNone && !(match env.configRcon with
      | some c => c.enabled
      | none => false)) = false := by
    rcases hen with hc | ⟨c, hc, hce⟩
    · cases cfg <;> simp_all
    · simp [hc, hce]
  have g2 : (env.lib == RconLib.missing) = false := by
    rcases hlib with hl | hl <;> rw [hl] <;> decide
  have g3 : (env.lib == RconLib.other) = false := by
    rcases hlib with hl | hl <;> rw [hl] <;> decide
  simp only [g1, g2, g3, e1, e2, e3, e4]
  simp

theorem tryNextmap_timeleft (re : Re) (out : List Char) (r : ConsoleInfo) :
    (tryNextmap re out r).timeleft = r.timeleft := by
  unfold tryNextmap
  split
  · rfl
  · split <;> rfl

theorem parseNextmap_timeleft (out : List Char) (r : ConsoleInfo) :
    (parseNextmap out r).timeleft = r.timeleft := by
  unfold parseNextmap
  split
  · rfl
  · simp only [tryNextmap_timeleft]
    split <;> rfl

theorem parseNextmap_found (out : List Char) (r : ConsoleInfo) (h : truthy r.nextmap = true) :
    parseNextmap out r = r := by
  unfold parseNextmap
  simp [h]

theorem tryTimeleft_nextmap (re : Re) (out : List Char) (r : ConsoleInfo) :
    (tryTimeleft re out r).nextmap = r.nextmap := by
  unfold tryTimeleft
  split
  · rfl
  · split <;> rfl

theorem parseMpTimelimit_nextmap (out : List Char) (r : ConsoleInfo) :
    (parseMpTimelimit out r).nextmap = r.nextmap := by
  unfold parseMpTimelimit
  split
  · rfl
  · split
    · rfl
    · split <;> rfl

theorem parseTimeleft_nextmap (out : List Char) (r : ConsoleInfo) :
    (parseTimeleft out r).nextmap = r.nextmap := by
  unfold parseTimeleft
  split
  · rfl
  · simp only [parseMpTimelimit_nextmap]
    split
    · simp only [tryTimeleft_nextmap]
      split <;> rfl
    · simp only [tryTimeleft_nextmap]
      split <;> rfl

theorem parseTimeleft_found (out : List Char) (r : ConsoleInfo) (h : truthy r.timeleft = true) :
    parseTimeleft out r = r := by
  unfold parseTimeleft
  simp [h]

theorem responseUpdate_nextmap (rcon : Session) (cmd : String) (r : ConsoleInfo)
    (h : truthy r.nextmap = true) : (responseUpdate rcon cmd r).nextmap = r.nextmap := by
  unfold responseUpdate processOutput
  split
  · rfl
  · split
    · rfl
    · simp only [parseTimeleft_nextmap, parseNextmap_found _ _ h]

theorem responseUpdate_timeleft (rcon : Session) (cmd : String) (r : ConsoleInfo)
    (h : truthy r.timeleft = true) : (responseUpdate rcon cmd r).timeleft = r.timeleft := by
  unfold responseUpdate processOutput
  split
  · rfl
  · split
    · rfl
    · have h2 : truthy (parseNextmap (responseText ‹_›) r).timeleft = true := by
        rw [parseNextmap_timeleft]; exact h
      simp only [parseTimeleft_found _ _ h2, parseNextmap_timeleft]

theorem resultsAfter_nextmap (rcon : Session) (cmds : List String) (r : ConsoleInfo)
    (h : truthy r.nextmap = true) : (resultsAfter rcon cmds r).nextmap = r.nextmap := by
  induction cmds generalizing r with
  | nil => rfl
  | cons c cs ih =>
    have h1 := responseUpdate_nextmap rcon c r h
    show (resultsAfter rcon cs (responseUpdate rcon c r)).nextmap = r.nextmap
    rw [ih _ (by rw [h1]; exact h), h1]

theorem resultsAfter_timeleft (rcon : Session) (cmds : List String) (r : ConsoleInfo)
    (h : truthy r.timeleft = true) : (resultsAfter rcon cmds r).timeleft = r.timeleft := by
  induction cmds generalizing r with
  | nil => rfl
  | cons c cs ih =>
    have h1 := responseUpdate_timeleft rcon c r h
    show (resultsAfter rcon cs (responseUpdate rcon c r)).timeleft = r.timeleft
    rw [ih _ (by rw [h1]; exact h), h1]

theorem resultsAfter_append (rcon : Session) (as bs : List String) (r : ConsoleInfo) :
    resultsAfter rcon (as ++ bs) r = resultsAfter rcon bs (resultsAfter rcon as r) := by
  simp [resultsAfter, List.foldl_append]

/-- One iteration of the loop, spelled out: the command is recorded as sent, the results are
those of `responseUpdate`, and the loop is left exactly when both fields are then found after
a non-empty response. -/
theorem commandStep_eq (rcon : Session) (cmd : String) (r : ConsoleInfo) (tr : List Event) :
    ∃ brk, commandStep rcon cmd r tr = (.ok (responseUpdate rcon cmd r, brk), tr ++ [.sent cmd]) ∧
      (brk = true → (responseUpdate rcon cmd r).complete = true) ∧
      (brk = false → r.complete = false → (responseUpdate rcon cmd r).complete = false) := by
  unfold commandStep responseUpdate Eff.tryCatch Eff.bind Eff.perform Eff.pure
  cases hs : rcon.send cmd with
  | error e => exact ⟨false, by simp, by simp, by simp⟩
  | ok resp =>
    refine ⟨(processOutput (responseText resp) r).2, by simp, ?_, ?_⟩
    · by_cases he : (responseText resp).isEmpty = true
      · simp [processOutput, he]
      · simp only [processOutput, he]
        simp
    · by_cases he : (responseText resp).isEmpty = true
      · simp only [processOutput, he]
        simp
      · simp only [processOutput, he]
        intro h _
        simpa using h

/-- The loop sends a prefix of its command list, processes each response in order, and stops
right after the first command that leaves both fields found. -/
theorem commandLoop_spec (rcon : Session) (cmds : List String) (r : ConsoleInfo)
    (tr : List Event) (hr : r.complete = false) :
    ∃ k, k ≤ cmds.length ∧
      commandLoop rcon cmds r tr =
        (.ok (resultsAfter rcon (cmds.take k) r), tr ++ (cmds.take k).map Event.sent) ∧
      (∀ j, j < k → (resultsAfter rcon (cmds.take j) r).complete = false) ∧
      (k < cmds.length → (resultsAfter rcon (cmds.take k) r).complete = true) ∧
      (cmds ≠ [] → 1 ≤ k) := by
  induction cmds generalizing r tr with
  | nil => exact ⟨0, by simp, by simp [commandLoop, Eff.pure, resultsAfter], by simp, by simp, by simp⟩
  | cons c cs ih =>
    obtain ⟨brk, hstep, hb1, hb2⟩ := commandStep_eq rcon c r tr
    cases brk with
    | true =>
      refine ⟨1, by simp, ?_, ?_, ?_, by simp⟩
      · simp [commandLoop, Eff.bind, hstep, Eff.pure, resultsAfter]
      · intro j hj
        have : j = 0 := by omega
        subst this
        simpa [resultsAfter] using hr
      · intro _
        simpa [resultsAfter] using hb1 rfl
    | false =>
      have hr1 := hb2 rfl hr
      obtain ⟨k, hk, hloop, hlt, hfin, _⟩ := ih (responseUpdate rcon c r) (tr ++ [.sent c]) hr1
      refine ⟨k + 1, by simpa using hk, ?_, ?_, ?_, by simp⟩
      · simp [commandLoop, Eff.bind, hstep, hloop, resultsAfter]
      · intro j hj
        cases j with
        | zero => simpa [resultsAfter] using hr
        | succ j =>
          have := hlt j (by omega)
          simpa [resultsAfter] using this
      · intro hlen
        have := hfin (by simpa using hlen)
        simpa [resultsAfter] using this
theorem closeSession_eq (rcon : Session) (tr : List Event) :
    closeSession rcon tr = (.ok (), tr ++ (if rcon.endIsFunction then [Event.ended] else [])) := by
  unfold closeSession Eff.tryCatch Eff.perform Eff.pure
  cases hf : rcon.endIsFunction with
  | false => simp
  | true =>
    cases he : rcon.endResult with
    | error e => simp
    | ok u => simp

/-- A whole session: a prefix of the nine commands is sent, then the session is closed; the
run returns the results of the responses processed, and it never throws. -/
theorem runSession_spec (rcon : Session) :
    ∃ k, 1 ≤ k ∧ k ≤ 9 ∧
      runSession rcon [] =
        (.ok (resultsAfter rcon (tryCommands.take k) {}),
          (tryCommands.take k).map Event.sent ++
            (if rcon.endIsFunction then [Event.ended] else [])) ∧
      (∀ j, j < k → (resultsAfter rcon (tryCommands.take j) {}).complete = false) ∧
      (k < 9 → (resultsAfter rcon (tryCommands.take k) {}).complete = true) := by
  obtain ⟨k, hk, hloop, hlt, hfin, hpos⟩ :=
    commandLoop_spec rcon tryCommands {} [] (by rfl)
  refine ⟨k, hpos (by decide), by simpa [tryCommands] using hk, ?_, hlt, ?_⟩
  · simp only [runSession, Eff.tryFinally, hloop, closeSession_eq]
    simp
  · intro h
    exact hfin (by simpa [tryCommands] using h)

theorem sentCommands_trace (cmds : List String) (b : Bool) :
    sentCommands (cmds.map Event.sent ++ (if b then [Event.ended] else [])) = cmds := by
  induction cmds with
  | nil => cases b <;> rfl
  | cons c cs ih => simpa [sentCommands] using ih

theorem resultsAfter_take_nextmap (rcon : Session) (cmds : List String) (i j : Nat) (hij : i ≤ j)
    (h : truthy (resultsAfter rcon (cmds.take i) {}).nextmap = true) :
    (resultsAfter rcon (cmds.take j) {}).nextmap = (resultsAfter rcon (cmds.take i) {}).nextmap := by
  obtain ⟨d, rfl⟩ := Nat.exists_eq_add_of_le hij
  rw [List.take_add, resultsAfter_append]
  exact resultsAfter_nextmap _ _ _ h

theorem resultsAfter_take_timeleft (rcon : Session) (cmds : List String) (i j : Nat) (hij : i ≤ j)
    (h : truthy (resultsAfter rcon (cmds.take i) {}).timeleft = true) :
    (resultsAfter rcon (cmds.take j) {}).timeleft =
      (resultsAfter rcon (cmds.take i) {}).timeleft := by
  obtain ⟨d, rfl⟩ := Nat.exists_eq_add_of_le hij
  rw [List.take_add, resultsAfter_append]
  exact resultsAfter_timeleft _ _ _ h

theorem resultsAfter_take_succ (rcon : Session) (cmds : List String) (i : Nat) (c : String)
    (hc : cmds[i]? = some c) :
    resultsAfter rcon (cmds.take (i + 1)) {} =
      responseUpdate rcon c (resultsAfter rcon (cmds.take i) {}) := by
  rw [List.take_succ, hc, resultsAfter_append]
  rfl

theorem demo_connects : Connects demoEnv none demoSession :=
  ⟨Or.inr ⟨_, rfl, rfl⟩, Or.inl rfl, "10.0.0.1", 27015, "secret", rfl, rfl, rfl, rfl⟩

/-- C8. In every console session opened by `attemptRconFetch`, the commands sent are the first
`k` of the fixed nine-command list, in order, for some `1 ≤ k ≤ 9`; the run returns the results
of processing exactly those responses; after fewer than `k` commands the two fields are not
both found, and if `k < 9` they are both found after the `k`-th (stated with the test of the
loop and again with the two fields spelled out), so the loop stops right after the first
command that leaves both found and otherwise sends all nine; and a field found after `i`
commands still has the same value after any `j ≥ i` commands. -/
theorem commands_sent_in_order (env : RconEnv) (cfg : Option RconConfig) (rcon : Session)
    (hconn : Connects env cfg rcon) :
    tryCommands = ["nextmap", "timeleft", "sm_cvar nextmap", "sm_cvar timeleft",
      "sm_cvar mp_nextmap", "sm_cvar mp_timelimit", "mp_nextmap", "mp_timelimit", "status"] ∧
    ∃ k, 1 ≤ k ∧ k ≤ 9 ∧
      sentCommands (attemptRconFetch env cfg []).2 = tryCommands.take k ∧
      (attemptRconFetch env cfg []).1 = .ok (resultsAfter rcon (tryCommands.take k) {}) ∧
      (∀ j, j < k → (resultsAfter rcon (tryCommands.take j) {}).complete = false) ∧
      (k < 9 → (resultsAfter rcon (tryCommands.take k) {}).complete = true) ∧
      (∀ i j, i ≤ j → truthy (resultsAfter rcon (tryCommands.take i) {}).nextmap = true →
        (resultsAfter rcon (tryCommands.take j) {}).nextmap =
          (resultsAfter rcon (tryCommands.take i) {}).nextmap) ∧
      (∀ i j, i ≤ j → truthy (resultsAfter rcon (tryCommands.take i) {}).timeleft = true →
        (resultsAfter rcon (tryCommands.take j) {}).timeleft =
          (resultsAfter rcon (tryCommands.take i) {}).timeleft) ∧
      (∀ j, j < k → ¬ (truthy (resultsAfter rcon (tryCommands.take j) {}).nextmap = true ∧
        truthy (resultsAfter rcon (tryCommands.take j) {}).timeleft = true)) ∧
      (k < 9 → truthy (resultsAfter rcon (tryCommands.take k) {}).nextmap = true ∧
        truthy (resultsAfter rcon (tryCommands.take k) {}).timeleft = true) := by
  refine ⟨rfl, ?_⟩
  obtain ⟨k, h1, h9, hrun, hlt, hfin⟩ := runSession_spec rcon
  rw [attemptRconFetch_of_connects hconn, hrun]
  refine ⟨k, h1, h9, sentCommands_trace _ _, rfl, hlt, hfin,
    fun i j hij h => resultsAfter_take_nextmap rcon _ i j hij h,
    fun i j hij h => resultsAfter_take_timeleft rcon _ i j hij h, ?_, ?_⟩
  · intro j hj hboth
    have := hlt j hj
    simp [ConsoleInfo.complete, hboth.1, hboth.2] at this
  · intro hk
    have := hfin hk
    simpa [ConsoleInfo.complete] using this

theorem commands_sent_in_order_witness :
    tryCommands = ["nextmap", "timeleft", "sm_cvar nextmap", "sm_cvar timeleft",
      "sm_cvar mp_nextmap", "sm_cvar mp_timelimit", "mp_nextmap", "mp_timelimit", "status"] ∧
    ∃ k, 1 ≤ k ∧ k ≤ 9 ∧
      sentCommands (attemptRconFetch demoEnv none []).2 = tryCommands.take k ∧
      (attemptRconFetch demoEnv none []).1 =
        .ok (resultsAfter demoSession (tryCommands.take k) {}) ∧
      (∀ j, j < k → (resultsAfter demoSession (tryCommands.take j) {}).complete = false) ∧
      (k < 9 → (resultsAfter demoSession (tryCommands.take k) {}).complete = true) ∧
      (∀ i j, i ≤ j → truthy (resultsAfter demoSession (tryCommands.take i) {}).nextmap = true →
        (resultsAfter demoSession (tryCommands.take j) {}).nextmap =
          (resultsAfter demoSession (tryCommands.take i) {}).nextmap) ∧
      (∀ i j, i ≤ j → truthy (resultsAfter demoSession (tryCommands.take i) {}).timeleft = true →
        (resultsAfter demoSession (tryCommands.take j) {}).timeleft =
          (resultsAfter demoSession (tryCommands.take i) {}).timeleft) ∧
      (∀ j, j < k → ¬ (truthy (resultsAfter demoSession (tryCommands.take j) {}).nextmap = true ∧
        truthy (resultsAfter demoSession (tryCommands.take j) {}).timeleft = true)) ∧
      (k < 9 → truthy (resultsAfter demoSession (tryCommands.take k) {}).nextmap = true ∧
        truthy (resultsAfter demoSession (tryCommands.take k) {}).timeleft = true) ∧
      sentCommands (attemptRconFetch demoEnv none []).2 =
        ["nextmap", "timeleft", "sm_cvar nextmap", "sm_cvar timeleft", "sm_cvar mp_nextmap",
          "sm_cvar mp_timelimit"] ∧
      (attemptRconFetch demoEnv none []).1 =
        .ok { nextmap := some "dod_anzio", timeleft := some "20 minutes (timelimit)" } :=
  let ⟨h0, k, h1, h9, hs, hr, ha, hb, hc, hd, he, hf⟩ :=
    commands_sent_in_order demoEnv none demoSession demo_connects
  ⟨h0, k, h1, h9, hs, hr, ha, hb, hc, hd, he, hf, rfl, rfl⟩

/-- C9. In every run of `attemptRconFetch` whose console connection is established (the session
having an `end` operation), whichever commands reject and whether or not `end` itself rejects:
the run returns normally; the trace is the first `k` commands followed by exactly one `end`,
which is the last operation; and a command that rejects is followed by the next candidate
whenever one is left. -/
theorem session_always_closed (env : RconEnv) (cfg : Option RconConfig) (rcon : Session)
    (hconn : Connects env cfg rcon) (hend : rcon.endIsFunction = true) :
    ∃ k info, 1 ≤ k ∧ k ≤ 9 ∧
      attemptRconFetch env cfg [] =
        (.ok info, (tryCommands.take k).map Event.sent ++ [Event.ended]) ∧
      (∀ i c e, tryCommands[i]? = some c → i < k → rcon.send c = .error e → i + 1 < 9 →
        i + 1 < k) := by
  obtain ⟨k, h1, h9, hrun, hlt, hfin⟩ := runSession_spec rcon
  refine ⟨k, resultsAfter rcon (tryCommands.take k) {}, h1, h9, ?_, ?_⟩
  · rw [attemptRconFetch_of_connects hconn, hrun, hend]
    rfl
  · intro i c e hc hik hfail hi9
    by_contra hcon
    have hk : k = i + 1 := by omega
    have hcomplete := hfin (by omega)
    have hbefore := hlt i hik
    rw [hk, resultsAfter_take_succ rcon _ i c hc] at hcomplete
    simp only [responseUpdate, hfail] at hcomplete
    rw [hbefore] at hcomplete
    exact Bool.noConfusion hcomplete

theorem session_always_closed_witness :
    (∃ k info, 1 ≤ k ∧ k ≤ 9 ∧
      attemptRconFetch demoEnv none [] =
        (.ok info, (tryCommands.take k).map Event.sent ++ [Event.ended]) ∧
      (∀ i c e, tryCommands[i]? = some c → i < k → demoSession.send c = .error e → i + 1 < 9 →
        i + 1 < k)) ∧
    attemptRconFetch demoEnv none [] =
      (.ok { nextmap := some "dod_anzio", timeleft := some "20 minutes (timelimit)" },
        [.sent "nextmap", .sent "timeleft", .sent "sm_cvar nextmap", .sent "sm_cvar timeleft",
          .sent "sm_cvar mp_nextmap", .sent "sm_cvar mp_timelimit", .ended]) :=
  ⟨session_always_closed demoEnv none demoSession demo_connects rfl, rfl⟩

/-! ## Facts about the matcher -/

theorem exec_cons_of_none (r : Re) (c : Char) (cs : List Char)
    (h : r.matchAt (c :: cs) = none) : r.exec (c :: cs) = r.exec cs := by
  simp [Re.exec, h]

theorem exec_of_matchAt (r : Re) (c : Char) (cs : List Char) (v : Capture)
    (h : r.matchAt (c :: cs) = some v) : r.exec (c :: cs) = some v := by
  simp [Re.exec, h]

/-- Greedy repetition over a run of class characters: if the continuation succeeds after the
whole run, that is the outcome. -/
theorem starRun_append (p : Char → Bool) (k : Cont) (t rest : List Char) (cap : Capture)
    (v : Capture) (ht : ∀ x ∈ t, p x = true) (h : starRun p k rest cap = some v) :
    starRun p k (t ++ rest) cap = some v := by
  induction t with
  | nil => simpa using h
  | cons a t ih =>
    have ha : p a = true := ht a (by simp)
    have := ih (fun x hx => ht x (by simp [hx]))
    simp [starRun, ha, this]

theorem trim_eq_self (c d : Char) (m : List Char) (hc : isWhiteSpace c = false)
    (hd : isWhiteSpace d = false) : trim (c :: (m ++ [d])) = c :: (m ++ [d]) := by
  unfold trim
  simp [List.dropWhile, hc, hd]

/-- The pattern `Next\s+Map:...` needs a white-space character after its first four; an input
without white space has no match. -/
theorem reNextMapColon_exec_noSpace (s : List Char) (hs : ∀ x ∈ s, isWhiteSpace x = false) :
    reNextMapColon.exec s = none := by
  induction s with
  | nil => simp [Re.exec, Re.matchAt, reNextMapColon, cat, word, ci, Re.run]
  | cons a s ih =>
    rw [exec_cons_of_none, ih (fun x hx => hs x (by simp [hx]))]
    rcases s with _ | ⟨b, _ | ⟨c, _ | ⟨d, _ | ⟨e, s⟩⟩⟩⟩ <;>
      simp [Re.matchAt, reNextMapColon, cat, word, ci, plus, Re.run]
    intro _ _ _ _
    simp [hs e (by simp)]

/-- The characters of the console line `"nextmap" is "<t>"`. -/
theorem nextmapLine_data (t : String) :
    ("\"nextmap\" is \"" ++ t ++ "\"").data =
      dq :: 'n' :: 'e' :: 'x' :: 't' :: 'm' :: 'a' :: 'p' :: dq :: ' ' :: 'i' :: 's' :: ' ' ::
        dq :: (t.data ++ [dq]) := rfl

theorem reNextMapColon_nextmapLine (t : List Char)
    (ht : ∀ x ∈ t, isWhiteSpace x = false) :
    reNextMapColon.exec (dq :: 'n' :: 'e' :: 'x' :: 't' :: 'm' :: 'a' :: 'p' :: dq :: ' ' ::
      'i' :: 's' :: ' ' :: dq :: (t ++ [dq])) = none := by
  have hend : reNextMapColon.exec (t ++ [dq]) = none :=
    reNextMapColon_exec_noSpace _ (by
      intro x hx
      rcases List.mem_append.mp hx with h | h
      · exact ht x h
      · simp at h; subst h; decide)
  iterate 14
    rw [exec_cons_of_none _ _ _
      (by simp [Re.matchAt, reNextMapColon, cat, word, ci, plus, Re.run, dq, isWhiteSpace])]
  exact hend
theorem reNextmapCvar_nextmapLine (a : Char) (t : List Char)
    (ht : ∀ x ∈ a :: t, notDqSpace x = true) :
    reNextmapCvar.matchAt (dq :: 'n' :: 'e' :: 'x' :: 't' :: 'm' :: 'a' :: 'p' :: dq :: ' ' ::
      'i' :: 's' :: ' ' :: dq :: (a :: t ++ [dq])) = some (some (a :: t)) := by
  have ha : notDqSpace a = true := ht a (by simp)
  have ht1 : ∀ x ∈ t, notDqSpace x = true := fun x hx => ht x (by simp [hx])
  simp only [Re.matchAt, reNextmapCvar, cat, word, ci, plus, Re.run, dq, isWhiteSpace, starRun,
    ha]
  simp
  rw [starRun_append _ _ _ _ _ (some (a :: t)) ht1
    (by simp [starRun, notDqSpace, dq, List.take_append_of_le_length])]
  simp [ha]

theorem data_ne_nil_of_ne_empty (t : String) (h : t ≠ "") : t.data ≠ [] := by
  intro hd
  apply h
  cases t
  simp_all

theorem truthy_some (t : String) (h : t.data ≠ []) : truthy (some t) = true := by
  cases hd : t.data with
  | nil => exact absurd hd h
  | cons a l => simp [truthy, hd]

/-- Parsing the line `"nextmap" is "<t>"` with no next-map found so far yields `t`. -/
theorem parseNextmap_nextmapLine (t : String) (r : ConsoleInfo) (hr : truthy r.nextmap = false)
    (hne : t.data ≠ [])
    (ht : ∀ c ∈ t.data, isWhiteSpace c = false ∧ c ≠ dq) :
    (parseNextmap ("\"nextmap\" is \"" ++ t ++ "\"").data r).nextmap = some t := by
  rw [nextmapLine_data]
  have h1 := reNextMapColon_nextmapLine t.data (fun x hx => (ht x hx).1)
  obtain ⟨a, l, hal⟩ : ∃ a l, t.data = a :: l := by
    cases hd : t.data with
    | nil => exact absurd hd hne
    | cons a l => exact ⟨a, l, rfl⟩
  have h2 : reNextmapCvar.exec (dq :: 'n' :: 'e' :: 'x' :: 't' :: 'm' :: 'a' :: 'p' :: dq ::
      ' ' :: 'i' :: 's' :: ' ' :: dq :: (t.data ++ [dq])) = some (some t.data) := by
    apply exec_of_matchAt
    rw [hal]
    apply reNextmapCvar_nextmapLine
    intro x hx
    have := ht x (by rw [hal]; exact hx)
    simp [notDqSpace, this.1, this.2]
  have h3 : truthy (some (String.mk t.data)) = true := truthy_some _ hne
  simp only [parseNextmap, hr, h1, tryNextmap, h2, Option.map, Bool.false_eq_true, if_false]
  rw [if_pos h3]

/-- C1. For every map token `t` that is non-empty and contains no white space and no quote
character: when the console connection is established and the console answers the first
command, `nextmap`, with the text `"nextmap" is "t"`, `attemptRconFetch` returns normally a
Console Info whose next-map is exactly `t`; the merge step turns every failed-fetch record
(offline, carrying an error) into an online one with name `Unknown (A2S failed)`, map
`Unknown`, an empty player list and no maxplayers, the error kept; and that record is what
`queryServerA2S` returns whenever the general query rejects with a value whose error string
`err.message || String(err)` can be read. -/
theorem console_nextmap_upgrades_failed_fetch (env : RconEnv) (cfg : Option RconConfig)
    (rcon : Session) (t : String) (hconn : Connects env cfg rcon) (hne : t ≠ "")
    (ht : ∀ c ∈ t.data, isWhiteSpace c = false ∧ c ≠ dq ∧ c ≠ sq)
    (hresp : rcon.send "nextmap" = .ok (some ("\"nextmap\" is \"" ++ t ++ "\""))) :
    ∃ info tr, attemptRconFetch env cfg [] = (.ok info, tr) ∧ info.nextmap = some t ∧
      (∀ error : Option String,
        mergeStep { online := false, error := error } info =
          { online := true, error := error,
            name := some "Unknown (A2S failed)", map := some "Unknown",
            players := .list [], maxplayers := none }) ∧
      (∀ (query : QueryKind → Except JSError QueryResult) (err : JSError) (message : String),
        query .general = .error err → errorString err = .ok message →
        (queryServerA2S query []).1 = .ok { online := false, error := some message }) := by
  obtain ⟨k, h1, h9, hrun, -, -⟩ := runSession_spec rcon
  have hd := data_ne_nil_of_ne_empty t hne
  have hfirst : (resultsAfter rcon (tryCommands.take 1) {}).nextmap = some t := by
    show (responseUpdate rcon "nextmap" {}).nextmap = some t
    have htrim : trim ("\"nextmap\" is \"" ++ t ++ "\"").data =
        ("\"nextmap\" is \"" ++ t ++ "\"").data := by
      rw [nextmapLine_data]
      exact trim_eq_self dq dq
        ('n' :: 'e' :: 'x' :: 't' :: 'm' :: 'a' :: 'p' :: dq :: ' ' :: 'i' :: 's' :: ' ' :: dq ::
          t.data) (by decide) (by decide)
    have hnonempty : (("\"nextmap\" is \"" ++ t ++ "\"").data).isEmpty = false := by
      rw [nextmapLine_data]; rfl
    simp only [responseUpdate, hresp, responseText, processOutput, htrim, hnonempty]
    simp only [Bool.false_eq_true, if_false, parseTimeleft_nextmap]
    exact parseNextmap_nextmapLine t {} rfl hd (fun c hc => ⟨(ht c hc).1, (ht c hc).2.1⟩)
  have hfinal : (resultsAfter rcon (tryCommands.take k) {}).nextmap = some t := by
    rw [resultsAfter_take_nextmap rcon tryCommands 1 k h1 (by rw [hfirst]; exact truthy_some t hd),
      hfirst]
  refine ⟨_, _, by rw [attemptRconFetch_of_connects hconn]; exact hrun, hfinal, ?_, ?_⟩
  · intro error
    simp [mergeStep, hfinal, truthy_some t hd, orStr, playersOrEmpty, maxplayersOrNull]
  · intro query err message hq he
    simp [queryServerA2S, Eff.tryCatch, Eff.bind, Eff.perform, Eff.pure, Eff.lift, hq, he]

/-! ## Decimal numerals and `Number` -/

theorem digitChar_spec (m : Nat) (hm : m < 10) :
    isDigit (Nat.digitChar m) = true ∧ (Nat.digitChar m).toNat - 48 = m := by
  interval_cases m <;> exact ⟨by decide, by decide⟩

theorem digitsValue_append_singleton (ds : List Char) (d : Char) :
    digitsValue (ds ++ [d]) = 10 * digitsValue ds + (d.toNat - 48) := by
  simp [digitsValue, List.foldl_append]

theorem toDigitsCore_spec (fuel n : Nat) (acc : List Char) (h : n < fuel) :
    ∃ ds, Nat.toDigitsCore 10 fuel n acc = ds ++ acc ∧ ds ≠ [] ∧
      (∀ x ∈ ds, isDigit x = true) ∧ digitsValue ds = n := by
  induction fuel generalizing n acc with
  | zero => omega
  | succ fuel ih =>
    have hd := digitChar_spec (n % 10) (Nat.mod_lt _ (by decide))
    unfold Nat.toDigitsCore
    by_cases h0 : n / 10 = 0
    · refine ⟨[Nat.digitChar (n % 10)], by simp [h0], by simp, by simpa using hd.1, ?_⟩
      have hn : n % 10 = n := Nat.mod_eq_of_lt (by omega)
      have h2 := hd.2
      rw [hn] at h2
      simp [digitsValue, h2, hn]
    · obtain ⟨ds, hds, hne, hall, hval⟩ :=
        ih (n / 10) (Nat.digitChar (n % 10) :: acc) (by omega)
      refine ⟨ds ++ [Nat.digitChar (n % 10)], by simp [h0, hds], by simp, ?_, ?_⟩
      · intro x hx
        rcases List.mem_append.mp hx with hx | hx
        · exact hall x hx
        · simp at hx; subst hx; exact hd.1
      · rw [digitsValue_append_singleton, hval, hd.2]
        omega

/-- The decimal numeral of `N` is a non-empty run of ASCII digits whose value is `N`. -/
theorem repr_spec (N : Nat) :
    (Nat.repr N).data ≠ [] ∧ (∀ x ∈ (Nat.repr N).data, isDigit x = true) ∧
      digitsValue (Nat.repr N).data = N := by
  obtain ⟨ds, hds, hne, hall, hval⟩ := toDigitsCore_spec (N + 1) N [] (by omega)
  have : (Nat.repr N).data = ds := by
    simp [Nat.repr, Nat.toDigits, hds, List.asString]
  rw [this]
  exact ⟨hne, hall, hval⟩

/-- Integers up to `2 ^ 53` convert exactly. -/
theorem roundToDouble_exact (N : Nat) (h : N ≤ 2 ^ 53) : roundToDouble N = .fin N := by
  rcases Nat.lt_or_eq_of_le h with h | h
  · unfold roundToDouble
    rw [if_pos h]
  · subst h; decide

/-- The text derived from an `mp_timelimit` value of `N ≤ 2 ^ 53` minutes. -/
theorem timelimitText_exact (N : Nat) (h : N ≤ 2 ^ 53) :
    timelimitText (jsNumber (Nat.repr N).data) =
      if N = 0 then "No timelimit" else Nat.repr N ++ " minutes (timelimit)" := by
  have hv := (repr_spec N).2.2
  simp only [timelimitText, jsNumber, hv, roundToDouble_exact N h, JSNum.isPositive,
    jsNumberToString]
  by_cases h0 : N = 0
  · simp [h0]
  · have : 0 < N := Nat.pos_of_ne_zero h0
    rw [if_pos h]
    simp [h0, this]

/-! ## The console line `"mp_timelimit" = "<N>"` -/

theorem digitOrQuote_not_letter (a : Char) (h : isDigit a = true ∨ a = dq) :
    a ≠ 't' ∧ a ≠ 'T' ∧ a ≠ 'n' ∧ a ≠ 'N' := by
  rcases h with h | rfl
  · refine ⟨?_, ?_, ?_, ?_⟩ <;> (rintro rfl; revert h; decide)
  · decide

theorem reTimeLeft_exec_digits (s : List Char) (hs : ∀ x ∈ s, isDigit x = true ∨ x = dq) :
    reTimeLeft.exec s = none := by
  induction s with
  | nil => simp [Re.exec, Re.matchAt, reTimeLeft, cat, word, ci, Re.run]
  | cons a s ih =>
    rw [exec_cons_of_none, ih (fun x hx => hs x (by simp [hx]))]
    have := digitOrQuote_not_letter a (hs a (by simp))
    simp [Re.matchAt, reTimeLeft, cat, word, ci, Re.run, this]

theorem reTimeleft_exec_digits (s : List Char) (hs : ∀ x ∈ s, isDigit x = true ∨ x = dq) :
    reTimeleft.exec s = none := by
  induction s with
  | nil => simp [Re.exec, Re.matchAt, reTimeleft, cat, word, ci, Re.run]
  | cons a s ih =>
    rw [exec_cons_of_none, ih (fun x hx => hs x (by simp [hx]))]
    have := digitOrQuote_not_letter a (hs a (by simp))
    simp [Re.matchAt, reTimeleft, cat, word, ci, Re.run, this]

theorem reNoTimelimit_exec_digits (s : List Char) (hs : ∀ x ∈ s, isDigit x = true ∨ x = dq) :
    reNoTimelimit.exec s = none := by
  induction s with
  | nil => simp [Re.exec, Re.matchAt, reNoTimelimit, cat, word, ci, Re.run]
  | cons a s ih =>
    rw [exec_cons_of_none, ih (fun x hx => hs x (by simp [hx]))]
    have := digitOrQuote_not_letter a (hs a (by simp))
    simp [Re.matchAt, reNoTimelimit, cat, word, ci, Re.run, this]

theorem timelimitLine_data (ds : String) :
    ("\"mp_timelimit\" = \"" ++ ds ++ "\"").data =
      dq :: 'm' :: 'p' :: '_' :: 't' :: 'i' :: 'm' :: 'e' :: 'l' :: 'i' :: 'm' :: 'i' :: 't' ::
        dq :: ' ' :: '=' :: ' ' :: dq :: (ds.data ++ [dq]) := rfl

theorem digits_then_quote (ds : List Char) (hds : ∀ x ∈ ds, isDigit x = true) :
    ∀ x ∈ ds ++ [dq], isDigit x = true ∨ x = dq := by
  intro x hx
  rcases List.mem_append.mp hx with h | h
  · exact Or.inl (hds x h)
  · simp at h; exact Or.inr h

theorem reTimeLeft_timelimitLine (ds : List Char) (hds : ∀ x ∈ ds, isDigit x = true) :
    reTimeLeft.exec (dq :: 'm' :: 'p' :: '_' :: 't' :: 'i' :: 'm' :: 'e' :: 'l' :: 'i' :: 'm' ::
      'i' :: 't' :: dq :: ' ' :: '=' :: ' ' :: dq :: (ds ++ [dq])) = none := by
  iterate 18
    rw [exec_cons_of_none _ _ _
      (by simp [Re.matchAt, reTimeLeft, cat, word, ci, plus, Re.run, dq, isWhiteSpace])]
  exact reTimeLeft_exec_digits _ (digits_then_quote ds hds)

theorem reTimeleft_timelimitLine (ds : List Char) (hds : ∀ x ∈ ds, isDigit x = true) :
    reTimeleft.exec (dq :: 'm' :: 'p' :: '_' :: 't' :: 'i' :: 'm' :: 'e' :: 'l' :: 'i' :: 'm' ::
      'i' :: 't' :: dq :: ' ' :: '=' :: ' ' :: dq :: (ds ++ [dq])) = none := by
  iterate 18
    rw [exec_cons_of_none _ _ _
      (by simp [Re.matchAt, reTimeleft, cat, word, ci, plus, Re.run, dq, isWhiteSpace])]
  exact reTimeleft_exec_digits _ (digits_then_quote ds hds)

theorem reNoTimelimit_timelimitLine (ds : List Char) (hds : ∀ x ∈ ds, isDigit x = true) :
    reNoTimelimit.exec (dq :: 'm' :: 'p' :: '_' :: 't' :: 'i' :: 'm' :: 'e' :: 'l' :: 'i' ::
      'm' :: 'i' :: 't' :: dq :: ' ' :: '=' :: ' ' :: dq :: (ds ++ [dq])) = none := by
  iterate 18
    rw [exec_cons_of_none _ _ _
      (by simp [Re.matchAt, reNoTimelimit, cat, word, ci, plus, Re.run, dq, isWhiteSpace])]
  exact reNoTimelimit_exec_digits _ (digits_then_quote ds hds)

theorem reMpTimelimitQuoted_timelimitLine (a : Char) (ds : List Char)
    (hds : ∀ x ∈ a :: ds, isDigit x = true) :
    reMpTimelimitQuoted.matchAt (dq :: 'm' :: 'p' :: '_' :: 't' :: 'i' :: 'm' :: 'e' :: 'l' ::
      'i' :: 'm' :: 'i' :: 't' :: dq :: ' ' :: '=' :: ' ' :: dq :: (a :: ds ++ [dq])) =
      some (some (a :: ds)) := by
  have ha : isDigit a = true := hds a (by simp)
  have hds1 : ∀ x ∈ ds, isDigit x = true := fun x hx => hds x (by simp [hx])
  simp only [Re.matchAt, reMpTimelimitQuoted, cat, word, ci, plus, Re.run, dq, isWhiteSpace,
    starRun, ha]
  simp
  rw [starRun_append _ _ _ _ _ (some (a :: ds)) hds1
    (by simp [starRun, isDigit, dq, List.take_append_of_le_length])]
  simp [ha]

/-- Parsing the line `"mp_timelimit" = "<N>"` with no time-left found so far yields the text
derived from `Number("<N>")`. -/
theorem parseTimeleft_timelimitLine (N : Nat) (r : ConsoleInfo)
    (hr : truthy r.timeleft = false) :
    (parseTimeleft ("\"mp_timelimit\" = \"" ++ Nat.repr N ++ "\"").data r).timeleft =
      some (timelimitText (jsNumber (Nat.repr N).data)) := by
  obtain ⟨hne, hall, -⟩ := repr_spec N
  rw [timelimitLine_data]
  have h1 := reTimeLeft_timelimitLine _ hall
  have h2 := reTimeleft_timelimitLine _ hall
  have h3 := reNoTimelimit_timelimitLine _ hall
  obtain ⟨a, l, hal⟩ : ∃ a l, (Nat.repr N).data = a :: l := by
    cases hd : (Nat.repr N).data with
    | nil => exact absurd hd hne
    | cons a l => exact ⟨a, l, rfl⟩
  have h4 : reMpTimelimitQuoted.exec (dq :: 'm' :: 'p' :: '_' :: 't' :: 'i' :: 'm' :: 'e' ::
      'l' :: 'i' :: 'm' :: 'i' :: 't' :: dq :: ' ' :: '=' :: ' ' :: dq ::
      ((Nat.repr N).data ++ [dq])) = some (some (a :: l)) := by
    apply exec_of_matchAt
    rw [hal]
    apply reMpTimelimitQuoted_timelimitLine
    rw [← hal]
    exact hall
  simp only [parseTimeleft, hr, h1, tryTimeleft, h2, h3, parseMpTimelimit, h4,
    Bool.false_eq_true, if_false, Option.isSome, Bool.and_false]
  rw [hal]

/-- C3 (amended). For every `N ≤ 2 ^ 53` written in decimal: when the console connection is
established, the response to the `i`-th command is the text `"mp_timelimit" = "N"`, and no
time-left value was obtained from the responses to the commands before it, `attemptRconFetch`
returns a time-left that is exactly `No timelimit` if `N = 0` and exactly
`N minutes (timelimit)` if `N > 0`. -/
theorem timelimit_response_sets_timeleft (env : RconEnv) (cfg : Option RconConfig)
    (rcon : Session) (N i : Nat) (cmd : String) (hconn : Connects env cfg rcon)
    (hN : N ≤ 2 ^ 53) (hcmd : tryCommands[i]? = some cmd)
    (hresp : rcon.send cmd = .ok (some ("\"mp_timelimit\" = \"" ++ Nat.repr N ++ "\"")))
    (hprev : truthy (resultsAfter rcon (tryCommands.take i) {}).timeleft = false) :
    ∃ info tr, attemptRconFetch env cfg [] = (.ok info, tr) ∧
      info.timeleft =
        some (if N = 0 then "No timelimit" else Nat.repr N ++ " minutes (timelimit)") := by
  obtain ⟨k, h1, h9, hrun, hlt, hfin⟩ := runSession_spec rcon
  have hi9 : i < 9 := by
    have := (List.getElem?_eq_some_iff.mp hcmd).1
    simpa [tryCommands] using this
  -- the loop cannot have stopped before the command
  have hik : i < k := by
    by_contra hcon
    have hk : k ≤ i := by omega
    have hc := hfin (by omega)
    have htl : truthy (resultsAfter rcon (tryCommands.take k) {}).timeleft = true := by
      simp only [ConsoleInfo.complete, Bool.and_eq_true] at hc
      exact hc.2
    have := resultsAfter_take_timeleft rcon tryCommands k i hk htl
    rw [this, htl] at hprev
    exact Bool.noConfusion hprev
  have hstep : (resultsAfter rcon (tryCommands.take (i + 1)) {}).timeleft =
      some (if N = 0 then "No timelimit" else Nat.repr N ++ " minutes (timelimit)") := by
    rw [resultsAfter_take_succ rcon _ i cmd hcmd, ← timelimitText_exact N hN]
    have htrim : trim ("\"mp_timelimit\" = \"" ++ Nat.repr N ++ "\"").data =
        ("\"mp_timelimit\" = \"" ++ Nat.repr N ++ "\"").data := by
      rw [timelimitLine_data]
      exact trim_eq_self dq dq
        ('m' :: 'p' :: '_' :: 't' :: 'i' :: 'm' :: 'e' :: 'l' :: 'i' :: 'm' :: 'i' :: 't' :: dq ::
          ' ' :: '=' :: ' ' :: dq :: (Nat.repr N).data) (by decide) (by decide)
    have hnonempty : (("\"mp_timelimit\" = \"" ++ Nat.repr N ++ "\"").data).isEmpty = false := by
      rw [timelimitLine_data]; rfl
    simp only [responseUpdate, hresp, responseText, processOutput, htrim, hnonempty]
    simp only [Bool.false_eq_true, if_false]
    exact parseTimeleft_timelimitLine N _ (by rw [parseNextmap_timeleft]; exact hprev)
  have htruthy : truthy (resultsAfter rcon (tryCommands.take (i + 1)) {}).timeleft = true := by
    rw [hstep]
    by_cases h0 : N = 0
    · simp [h0, truthy]
    · rw [if_neg h0]
      apply truthy_some
      have := (repr_spec N).1
      simp only [String.data_append]
      intro h
      exact this (List.append_eq_nil.mp h).1
  refine ⟨_, _, by rw [attemptRconFetch_of_connects hconn]; exact hrun, ?_⟩
  rw [resultsAfter_take_timeleft rcon tryCommands (i + 1) k (by omega) htruthy, hstep]

/-! ## The presenter and the fetcher -/

theorem isEmpty_data_iff (s : String) : s.data.isEmpty = true ↔ s = "" := by
  cases s with
  | mk d => cases d <;> simp [String.ext_iff]

theorem orStr_eq_firstPresent (a : Option String) (d : String) :
    orStr a d = firstPresent [a] d := by
  cases a with
  | none => rfl
  | some s =>
    by_cases h : s = ""
    · subst h; rfl
    · have : s.data.isEmpty = false := by
        rw [Bool.eq_false_iff]; exact fun hh => h ((isEmpty_data_iff s).mp hh)
      simp [orStr, firstPresent, h, this]

theorem rulesChain_eq_firstPresent (a b : Option String) (d : String) :
    orStr (orOpt a (orOpt a b)) d = firstPresent [a, b] d := by
  cases a with
  | none =>
    cases b with
    | none => rfl
    | some t =>
      by_cases h : t = ""
      · subst h; rfl
      · have : t.data.isEmpty = false := by
          rw [Bool.eq_false_iff]; exact fun hh => h ((isEmpty_data_iff t).mp hh)
        simp [orStr, orOpt, truthy, firstPresent, h, this]
  | some s =>
    by_cases h : s = ""
    · subst h
      cases b with
      | none => rfl
      | some t =>
        by_cases h2 : t = ""
        · subst h2; rfl
        · have : t.data.isEmpty = false := by
            rw [Bool.eq_false_iff]; exact fun hh => h2 ((isEmpty_data_iff t).mp hh)
          simp [orStr, orOpt, truthy, firstPresent, h2, this]
    · have : s.data.isEmpty = false := by
        rw [Bool.eq_false_iff]; exact fun hh => h ((isEmpty_data_iff s).mp hh)
      simp [orStr, orOpt, truthy, firstPresent, h, this]

theorem displayValue_eq_firstPresent (c : Option String) (rules : Rules) (k k2 : String) :
    displayValue c (some rules) k k2 =
      .ok (firstPresent [c, rules.lookup k, rules.lookup k2] "Unknown") := by
  cases c with
  | none => simp [displayValue, rulesValue, rulesChain_eq_firstPresent, firstPresent]
  | some s =>
    by_cases h : s = ""
    · subst h
      simp [displayValue, rulesValue, rulesChain_eq_firstPresent, firstPresent]
    · have : s.data.isEmpty = false := by
        rw [Bool.eq_false_iff]; exact fun hh => h ((isEmpty_data_iff s).mp hh)
      simp [displayValue, firstPresent, h, this]

theorem firstPresent_rules (rules : Rules) (k k2 : String) :
    firstPresent [none, rules.lookup k, rules.lookup k2] "Unknown" = "Unknown" ∨
      ∃ key, rules.lookup key =
        some (firstPresent [none, rules.lookup k, rules.lookup k2] "Unknown") := by
  cases h1 : rules.lookup k with
  | none =>
    cases h2 : rules.lookup k2 with
    | none => left; rfl
    | some t =>
      by_cases ht : t = ""
      · left; simp [firstPresent, ht]
      · right; exact ⟨k2, by simp [firstPresent, ht, h2]⟩
  | some s =>
    by_cases hs : s = ""
    · cases h2 : rules.lookup k2 with
      | none => left; simp [firstPresent, hs]
      | some t =>
        by_cases ht : t = ""
        · left; simp [firstPresent, hs, ht]
        · right; exact ⟨k2, by simp [firstPresent, hs, ht, h2]⟩
    · right; exact ⟨k, by simp [firstPresent, hs, h1]⟩

theorem build_ok_eq (b : EmbedBuilder) (e e1 : Embed) (h : b.build e = .ok e1) : e1 = e := by
  unfold EmbedBuilder.build at h
  repeat' split at h
  all_goals first
    | exact Except.noConfusion h
    | (injection h with h; exact h.symm)

theorem build_of_accepts (b : EmbedBuilder) (e : Embed) (h : b.accepts e = true) :
    b.build e = .ok e := by
  unfold EmbedBuilder.accepts at h
  cases hb : b.build e with
  | error err => rw [hb] at h; exact Bool.noConfusion h
  | ok e1 => rw [build_ok_eq b e e1 hb]

/-- C4 (amended). For every message builder, every online Status Record with a rules mapping
and every Console Info such that the builder accepts the values of the online message (they
are within the library's limits), the presenter returns a message whose Next Map field is the
console next-map if present and non-empty, else the rules value under `nextmap` if present and
non-empty, else the rules value under `mp_nextmap` if present and non-empty, else `Unknown`,
and whose Time Left field is the console time-left, else the rules value under `timeleft`,
else the rules value under `mp_timelimit`, each if present and non-empty, else `Unknown`.
With an empty Console Info each of the two fields is `Unknown` or a value of the rules
mapping. -/
theorem display_precedence (builder : EmbedBuilder) (host : String) (port : Nat)
    (result : StatusRecord) (rconInfo : ConsoleInfo) (rules : Rules)
    (honline : result.online = true) (hrules : result.rules = some rules)
    (hacc : builder.accepts (onlineEmbed host port result
      (firstPresent [rconInfo.nextmap, rules.lookup "nextmap", rules.lookup "mp_nextmap"]
        "Unknown")
      (firstPresent [rconInfo.timeleft, rules.lookup "timeleft", rules.lookup "mp_timelimit"]
        "Unknown")) = true) :
    ∃ embed, buildEmbedFromResult builder host port result rconInfo = .ok embed ∧
      embed.field "Next Map" = some (firstPresent
        [rconInfo.nextmap, rules.lookup "nextmap", rules.lookup "mp_nextmap"] "Unknown") ∧
      embed.field "Time Left" = some (firstPresent
        [rconInfo.timeleft, rules.lookup "timeleft", rules.lookup "mp_timelimit"] "Unknown") ∧
      (rconInfo = {} →
        (embed.field "Next Map" = some "Unknown" ∨
          ∃ key, rules.lookup key = embed.field "Next Map") ∧
        (embed.field "Time Left" = some "Unknown" ∨
          ∃ key, rules.lookup key = embed.field "Time Left")) := by
  have hup : upgradedOnline result rconInfo = true := by simp [upgradedOnline, honline]
  simp only [buildEmbedFromResult, hup, hrules, displayValue_eq_firstPresent,
    build_of_accepts builder _ hacc]
  refine ⟨_, rfl, by simp [onlineEmbed, Embed.field, List.find?],
    by simp [onlineEmbed, Embed.field, List.find?], ?_⟩
  intro hempty
  subst hempty
  constructor
  · have := firstPresent_rules rules "nextmap" "mp_nextmap"
    simpa [onlineEmbed, Embed.field, List.find?] using this
  · have := firstPresent_rules rules "timeleft" "mp_timelimit"
    simpa [onlineEmbed, Embed.field, List.find?] using this

theorem display_precedence_witness :
    ∃ embed, buildEmbedFromResult discordBuilder "10.0.0.1" 27015 demoRecord {} = .ok embed ∧
      embed.field "Next Map" = some (firstPresent
        [none, [("mp_timelimit", "20")].lookup "nextmap",
          [("mp_timelimit", "20")].lookup "mp_nextmap"] "Unknown") ∧
      embed.field "Time Left" = some (firstPresent
        [none, [("mp_timelimit", "20")].lookup "timeleft",
          [("mp_timelimit", "20")].lookup "mp_timelimit"] "Unknown") ∧
      (({} : ConsoleInfo) = {} →
        (embed.field "Next Map" = some "Unknown" ∨
          ∃ key, [("mp_timelimit", "20")].lookup key = embed.field "Next Map") ∧
        (embed.field "Time Left" = some "Unknown" ∨
          ∃ key, [("mp_timelimit", "20")].lookup key = embed.field "Time Left")) :=
  display_precedence discordBuilder "10.0.0.1" 27015 demoRecord {} [("mp_timelimit", "20")]
    rfl rfl (by decide)

/-- A record that the merge step leaves offline and that carries no raw payload takes the
offline branch of the presenter. -/
theorem merge_offline_not_upgraded (r0 : StatusRecord) (rconInfo : ConsoleInfo)
    (hraw : (mergeStep r0 rconInfo).raw = none)
    (hoff : (mergeStep r0 rconInfo).online = false) :
    upgradedOnline (mergeStep r0 rconInfo) rconInfo = false := by
  unfold mergeStep at hoff hraw ⊢
  by_cases hc : (!r0.online && (truthy rconInfo.nextmap || truthy rconInfo.timeleft)) = true
  · simp [hc] at hoff
  · simp only [hc] at hoff hraw ⊢
    simp only [Bool.false_eq_true, if_false] at hoff hraw ⊢
    simp only [hoff, Bool.not_false, Bool.true_and] at hc
    simp only [Bool.or_eq_true, not_or, Bool.not_eq_true] at hc
    simp [upgradedOnline, hoff, hc.1, hc.2, hraw]

/-- C6 (amended). For every message builder, host, port, Status Record and Console Info: if
the record's online flag after the merge step is false, the record carries no raw payload, and
the builder accepts the values of the offline message (the title and the Error value are
within the library's limits), `buildEmbedFromResult` returns the offline message: title
`Server: <host>:<port>`, description `Status: Offline or unreachable`, and a single field
named `Error` whose value is the record's error string if present and non-empty, and
`Query failed` otherwise. -/
theorem offline_message (builder : EmbedBuilder) (host : String) (port : Nat)
    (record : StatusRecord) (rconInfo : ConsoleInfo)
    (hoff : (mergeStep record rconInfo).online = false)
    (hraw : (mergeStep record rconInfo).raw = none)
    (hacc : builder.accepts (offlineEmbed host port (mergeStep record rconInfo)) = true) :
    buildEmbedFromResult builder host port (mergeStep record rconInfo) rconInfo =
      .ok { title := "Server: " ++ host ++ ":" ++ jsNumberToString (.fin port)
            description := "Status: Offline or unreachable"
            color := 0xFF0000
            fields := [{ name := "Error",
                         value := firstPresent [(mergeStep record rconInfo).error]
                           "Query failed",
                         inline := false }]
            footer := none
            timestamp := true } := by
  have h := merge_offline_not_upgraded record rconInfo hraw hoff
  simp only [buildEmbedFromResult, h, build_of_accepts builder _ hacc]
  simp [offlineEmbed, hostPort, orStr_eq_firstPresent, String.append_assoc]

theorem offline_message_witness :
    buildEmbedFromResult discordBuilder "10.0.0.1" 27015 (mergeStep failedFetch {}) {} =
      .ok { title := "Server: " ++ "10.0.0.1" ++ ":" ++ jsNumberToString (.fin 27015)
            description := "Status: Offline or unreachable"
            color := 0xFF0000
            fields := [{ name := "Error",
                         value := firstPresent [(mergeStep failedFetch {}).error]
                           "Query failed",
                         inline := false }]
            footer := none
            timestamp := true } :=
  offline_message discordBuilder "10.0.0.1" 27015 failedFetch {} (by decide) (by decide)
    (by decide)

theorem displayValue_none (c : Option String) (k k2 : String) :
    displayValue c none k k2 =
      if truthy c then .ok (c.getD "")
      else .error (.typeError ("Cannot read properties of undefined (reading '" ++ k ++ "')")) := by
  cases c with
  | none => rfl
  | some v =>
    by_cases hv : v.data.isEmpty = true
    · simp [displayValue, rulesValue, truthy, hv]
    · simp [displayValue, truthy, hv]

/-- Whenever a record has no rules mapping and the console supplies only one of the two
fields, the presenter raises instead of returning a message, whatever the builder. -/
theorem presenter_raises_without_rules (builder : EmbedBuilder) (host : String) (port : Nat)
    (result : StatusRecord) (rconInfo : ConsoleInfo)
    (hon : upgradedOnline result rconInfo = true) (hrules : result.rules = none)
    (hone : truthy rconInfo.nextmap = false ∨ truthy rconInfo.timeleft = false) :
    ∃ msg, buildEmbedFromResult builder host port result rconInfo =
      .error (.typeError msg) := by
  simp only [buildEmbedFromResult, hon, hrules, displayValue_none]
  cases h1 : truthy rconInfo.nextmap with
  | false => exact ⟨"Cannot read properties of undefined (reading 'nextmap')", by simp⟩
  | true =>
    have h2 : truthy rconInfo.timeleft = false := by
      rcases hone with h | h
      · rw [h1] at h; exact absurd h (by decide)
      · exact h
    exact ⟨"Cannot read properties of undefined (reading 'timeleft')", by simp [h2]⟩

/-- C2. The failing input: the failed fetch `{online: false, error: "timeout"}` upgraded by
the merge step because the console supplied a next-map only.  The upgraded record is online
and has no rules mapping, and, whatever the message builder, `buildEmbedFromResult` raises a
`TypeError` (reading `timeleft` of the undefined rules) before any setter is called, instead
of returning a message with Time Left `Unknown`; the `server` command run against such a
server raises likewise. -/
theorem presenter_raises_on_upgraded_record (builder : EmbedBuilder) :
    (mergeStep failedFetch nextmapOnly).online = true ∧
    (mergeStep failedFetch nextmapOnly).rules = none ∧
    buildEmbedFromResult builder "10.0.0.1" 27015 (mergeStep failedFetch nextmapOnly)
      nextmapOnly =
      .error (.typeError "Cannot read properties of undefined (reading 'timeleft')") ∧
    handleServerCommand (staleEnv builder) none none =
      .error (.typeError "Cannot read properties of undefined (reading 'timeleft')") :=
  ⟨rfl, rfl, rfl, rfl⟩

/-- C5. The failing input: the failed fetch upgraded by the merge step because the console
supplied a time-left only.  The upgraded record is online with an empty player list and no
maxplayers, so its player count reads `0/??`, but, whatever the message builder,
`buildEmbedFromResult` raises a `TypeError` and no message, hence no Players field, is
produced. -/
theorem players_field_missing_on_upgraded_record (builder : EmbedBuilder) :
    (mergeStep failedFetch timeleftOnly).online = true ∧
    (mergeStep failedFetch timeleftOnly).players = .list [] ∧
    (mergeStep failedFetch timeleftOnly).maxplayers = none ∧
    playerCount (mergeStep failedFetch timeleftOnly) = "0/??" ∧
    buildEmbedFromResult builder "10.0.0.1" 27015 (mergeStep failedFetch timeleftOnly)
      timeleftOnly =
      .error (.typeError "Cannot read properties of undefined (reading 'nextmap')") :=
  ⟨rfl, rfl, rfl, by decide, rfl⟩

/-- Where the presenter returns a message for an online record, the Players field is the
player count: `n/m`, `n/??` without maxplayers, `Unknown` when `players` is not a list; and
it does return one whenever the record has a rules mapping and the builder accepts the
values. -/
theorem players_field_of_online_record (builder : EmbedBuilder) (host : String) (port : Nat)
    (result : StatusRecord) (rconInfo : ConsoleInfo) (hon : result.online = true) :
    (∀ embed, buildEmbedFromResult builder host port result rconInfo = .ok embed →
      embed.field "Players" = some (playerCount result)) ∧
    (∀ rules, result.rules = some rules →
      builder.accepts (onlineEmbed host port result
        (firstPresent [rconInfo.nextmap, rules.lookup "nextmap", rules.lookup "mp_nextmap"]
          "Unknown")
        (firstPresent [rconInfo.timeleft, rules.lookup "timeleft",
          rules.lookup "mp_timelimit"] "Unknown")) = true →
      ∃ embed, buildEmbedFromResult builder host port result rconInfo = .ok embed) ∧
    (∀ names m, result.players = .list names → result.maxplayers = some m →
      playerCount result = Nat.repr names.length ++ "/" ++ jsNumberToString (.fin m)) ∧
    (∀ names, result.players = .list names → result.maxplayers = none →
      playerCount result = Nat.repr names.length ++ "/" ++ "??") ∧
    ((∀ names, result.players ≠ .list names) → playerCount result = "Unknown") := by
  have hup : upgradedOnline result rconInfo = true := by simp [upgradedOnline, hon]
  refine ⟨?_, ?_, ?_, ?_, ?_⟩
  · intro embed h
    simp only [buildEmbedFromResult, hup] at h
    cases h1 : displayValue rconInfo.nextmap result.rules "nextmap" "mp_nextmap" with
    | error e => simp [h1] at h
    | ok v =>
      cases h2 : displayValue rconInfo.timeleft result.rules "timeleft" "mp_timelimit" with
      | error e => simp [h1, h2] at h
      | ok w =>
        simp only [h1, h2, Bool.not_true, Bool.false_eq_true, if_false] at h
        rw [build_ok_eq _ _ _ h]
        simp [onlineEmbed, Embed.field, List.find?]
  · intro rules hrules hacc
    simp only [buildEmbedFromResult, hup, hrules, displayValue_eq_firstPresent,
      build_of_accepts builder _ hacc]
    exact ⟨_, rfl⟩
  · intro names m hp hm
    simp [playerCount, hp, hm]
  · intro names hp hm
    simp [playerCount, hp, hm]
  · intro hnot
    cases hp : result.players with
    | list names => exact absurd hp (hnot names)
    | undefined => simp [playerCount, hp]
    | other b => simp [playerCount, hp]

theorem queryServerA2S_general_fails (query : QueryKind → Except JSError QueryResult)
    (err : JSError) (hg : query .general = .error err) :
    queryServerA2S query [] =
      ((errorString err).map fun message => { online := false, error := some message },
        [.general]) := by
  cases he : errorString err <;>
    simp [queryServerA2S, Eff.tryCatch, Eff.bind, Eff.perform, Eff.pure, Eff.lift, hg, he,
      Except.map]

theorem queryServerA2S_general_ok (query : QueryKind → Except JSError QueryResult)
    (res : QueryResult) (hg : query .general = .ok res) :
    queryServerA2S query [] =
      (.ok { online := true
             name := some (orStr (orOpt res.name res.hostname) "Unknown")
             map := some (orStr res.map "Unknown")
             players := playersOrEmpty res.players
             maxplayers := maxplayersOrNull res.maxplayers
             raw := some (res.raw.getD {})
             rules := some (match query .rules with
               | .ok rulesRes => extractRules rulesRes
               | .error _ => []) }, [.general, .rules]) := by
  cases hr : query .rules <;>
    simp [queryServerA2S, Eff.tryCatch, Eff.bind, Eff.perform, Eff.pure, hg, hr]

/-- C10 (amended). `queryServerA2S` does not raise unless the general query rejects with a
value on which `err.message || String(err)` cannot be evaluated, such as `null` or
`undefined`.  If the general query rejects with any other value, it returns an offline record
carrying that error string after that single query (no second attempt); for a rejection whose
`message` and string conversion can be read the string is the message if present and
non-empty, else the string conversion.  If the general query resolves and the rules query
rejects (with any value), it returns an online record whose rules mapping is empty, whose name
is the result's name, else its hostname, else `Unknown`, whose map is the result's map, else
`Unknown` (a string counting when present and non-empty), whose players are the result's
`players` value, or the empty list when that value is undefined or falsy, and whose maxplayers
is the result's value, or null when it is missing or zero. -/
theorem fetch_never_raises (query : QueryKind → Except JSError QueryResult) :
    ((∀ err, query .general = .error err → ∃ message, errorString err = .ok message) →
      ∃ record tr, queryServerA2S query [] = (.ok record, tr)) ∧
    (∀ err message, query .general = .error err → errorString err = .ok message →
      queryServerA2S query [] =
        (.ok { online := false, error := some message }, [.general])) ∧
    (∀ message text, query .general = .error (.thrown message text) →
      queryServerA2S query [] =
        (.ok { online := false, error := some (firstPresent [message] text) }, [.general])) ∧
    (∀ res err, query .general = .ok res → query .rules = .error err →
      ∃ record, queryServerA2S query [] = (.ok record, [.general, .rules]) ∧
        record.online = true ∧ record.rules = some [] ∧
        record.name = some (firstPresent [res.name, res.hostname] "Unknown") ∧
        record.map = some (firstPresent [res.map] "Unknown") ∧
        (∀ names, res.players = .list names → record.players = .list names) ∧
        (res.players = .other true → record.players = .other true) ∧
        (res.players = .undefined ∨ res.players = .other false → record.players = .list []) ∧
        (∀ m, res.maxplayers = some (m + 1) → record.maxplayers = some (m + 1)) ∧
        (res.maxplayers = none ∨ res.maxplayers = some 0 → record.maxplayers = none)) := by
  have hfail : ∀ err message, query .general = .error err → errorString err = .ok message →
      queryServerA2S query [] =
        (.ok { online := false, error := some message }, [.general]) := by
    intro err message hg he
    rw [queryServerA2S_general_fails query err hg, he]
    rfl
  refine ⟨?_, hfail, ?_, ?_⟩
  · intro hread
    cases hg : query .general with
    | error e =>
      obtain ⟨m, hm⟩ := hread e hg
      exact ⟨_, _, hfail e m hg hm⟩
    | ok res => exact ⟨_, _, queryServerA2S_general_ok query res hg⟩
  · intro message text hg
    rw [hfail _ (orStr message text) hg rfl, orStr_eq_firstPresent]
  · intro res err hg hr
    refine ⟨_, queryServerA2S_general_ok query res hg, rfl, by simp [hr], ?_, ?_, ?_, ?_, ?_,
      ?_, ?_⟩
    · show some (orStr (orOpt res.name res.hostname) "Unknown") = _
      cases hn : res.name with
      | none => simp [orOpt, truthy, orStr_eq_firstPresent, firstPresent]
      | some s =>
        by_cases hs : s = ""
        · subst hs
          simp [orOpt, truthy, orStr_eq_firstPresent, firstPresent]
        · have hd : s.data.isEmpty = false := by
            rw [Bool.eq_false_iff]; exact fun hh => hs ((isEmpty_data_iff s).mp hh)
          simp [orOpt, truthy, orStr, firstPresent, hs, hd]
    · show some (orStr res.map "Unknown") = _
      rw [orStr_eq_firstPresent]
    · intro names hp
      show playersOrEmpty res.players = _
      rw [hp]; rfl
    · intro hp
      show playersOrEmpty res.players = _
      rw [hp]; rfl
    · intro hp
      show playersOrEmpty res.players = _
      rcases hp with hp | hp <;> rw [hp] <;> rfl
    · intro m hm
      show maxplayersOrNull res.maxplayers = _
      rw [hm]; rfl
    · intro hm
      show maxplayersOrNull res.maxplayers = _
      rcases hm with hm | hm <;> rw [hm] <;> rfl

theorem fetch_never_raises_witness :
    ((∀ err, hostnameOnlyQuery .general = .error err →
        ∃ message, errorString err = .ok message) →
      ∃ record tr, queryServerA2S hostnameOnlyQuery [] = (.ok record, tr)) ∧
    (queryServerA2S hostnameOnlyQuery []).1.toOption.map
        (fun r => (r.online, r.name, r.map, r.players, r.maxplayers, r.rules)) =
      some (true, some "DoD:S Server", some "dod_flash", .list [], some 32, some []) ∧
    queryServerA2S (fun _ => .error (.thrown (some "timeout") "Error: timeout")) [] =
      (.ok { online := false, error := some "timeout" }, [.general]) :=
  ⟨(fetch_never_raises hostnameOnlyQuery).1, rfl, rfl⟩

set_option maxRecDepth 100000

/-- C4, as stated, fails on an online record whose rules mapping holds an empty `nextmap`
and `mp_nextmap = dod_anzio`, with an empty Console Info: the rules value under `nextmap` is
present (it is the empty string), so the claim gives the empty string for Next Map; the
presenter shows `dod_anzio`.  It also fails on an online record whose `nextmap` rule has 1025
characters: the claim gives a message showing that value; the builder of the library throws
on a field value above 1024 and no message is returned. -/
theorem empty_rules_value_is_skipped :
    (emptyNextmapRecord.online = true ∧
      emptyNextmapRecord.rules = some [("nextmap", ""), ("mp_nextmap", "dod_anzio")] ∧
      (buildEmbedFromResult discordBuilder "10.0.0.1" 27015 emptyNextmapRecord {}).toOption.bind
        (·.field "Next Map") = some "dod_anzio" ∧
      firstDefined [none, [("nextmap", ""), ("mp_nextmap", "dod_anzio")].lookup "nextmap",
        [("nextmap", ""), ("mp_nextmap", "dod_anzio")].lookup "mp_nextmap"] "Unknown" = "" ∧
      (some "dod_anzio" : Option String) ≠ some "") ∧
    (longNextmapRecord.online = true ∧ longNextmapRecord.rules.isSome = true ∧
      buildEmbedFromResult discordBuilder "10.0.0.1" 27015 longNextmapRecord {} =
        .error validationError) :=
  ⟨⟨by decide, by decide, by decide, by decide, by decide⟩, by decide, by decide, rfl⟩

/-- C6, as stated, fails in three ways.  With the 300-character host that the `ip` option may
carry, the failed fetch stays offline after the merge step, and the builder of the library
throws on the title `Server: <host>:<port>` (above 256), so no offline message is returned.
An offline record that carries a raw payload stays offline after the merge step, yet the
presenter takes its online branch.  And for an offline record whose error string is the empty
string (the record `queryServerA2S` returns when the query service rejects with a value whose
message and text are empty) the error string is present, so the claim gives the empty string
for the Error field; the presenter shows `Query failed`. -/
theorem offline_message_not_always_returned :
    ((mergeStep failedFetch {}).online = false ∧
      buildEmbedFromResult discordBuilder longHost 27015 (mergeStep failedFetch {}) {} =
        .error validationError) ∧
    ((mergeStep rawOfflineRecord {}).online = false ∧
      (buildEmbedFromResult discordBuilder "10.0.0.1" 27015 (mergeStep rawOfflineRecord {})
        {}).toOption.map (·.description) = some "Status: Online — 10.0.0.1:27015") ∧
    ((queryServerA2S (fun _ => .error (.thrown none "")) []).1 = .ok emptyErrorRecord ∧
      (mergeStep emptyErrorRecord {}).online = false ∧
      emptyErrorRecord.error = some "" ∧
      (buildEmbedFromResult discordBuilder "10.0.0.1" 27015 (mergeStep emptyErrorRecord {})
        {}).toOption.bind (·.field "Error") = some "Query failed" ∧
      firstDefined [emptyErrorRecord.error] "Query failed" = "" ∧
      (some "Query failed" : Option String) ≠ some "") :=
  ⟨⟨by decide, rfl⟩, ⟨by decide, by decide⟩,
    ⟨rfl, by decide, by decide, by decide, by decide, by decide⟩⟩

/-- C10, as stated, fails when the general query resolves with a hostname and no name and
the rules query rejects: the name is missing from the general result, so the claim gives the
default `Unknown`; the record's name is the hostname.  It also fails when the general query
rejects with `null`: reading `err.message` in the `catch` block raises a `TypeError`, which
leaves `queryServerA2S`. -/
theorem missing_name_falls_back_to_hostname :
    ((∃ res, hostnameOnlyQuery .general = .ok res ∧ res.name = none) ∧
      (∃ err, hostnameOnlyQuery .rules = .error err) ∧
      (queryServerA2S hostnameOnlyQuery []).1.toOption.bind (·.name) = some "DoD:S Server" ∧
      firstDefined [none] "Unknown" = "Unknown" ∧
      (some "DoD:S Server" : Option String) ≠ some "Unknown") ∧
    queryServerA2S nullRejectingQuery [] =
      (.error (.typeError "Cannot read properties of null (reading 'message')"), [.general]) :=
  ⟨⟨⟨_, rfl, rfl⟩, ⟨_, rfl⟩, rfl, rfl, by decide⟩, rfl⟩

/-! ## Instances and failing inputs -/

theorem console_nextmap_upgrades_failed_fetch_witness :
    ∃ info tr, attemptRconFetch demoEnv none [] = (.ok info, tr) ∧
      info.nextmap = some "dod_anzio" ∧
      (∀ error : Option String,
        mergeStep { online := false, error := error } info =
          { online := true, error := error,
            name := some "Unknown (A2S failed)", map := some "Unknown",
            players := .list [], maxplayers := none }) ∧
      (∀ (query : QueryKind → Except JSError QueryResult) (err : JSError) (message : String),
        query .general = .error err → errorString err = .ok message →
        (queryServerA2S query []).1 = .ok { online := false, error := some message }) :=
  console_nextmap_upgrades_failed_fetch demoEnv none demoSession "dod_anzio" demo_connects
    (by decide) (by decide) rfl

theorem zeroLimit_connects : Connects zeroLimitEnv none zeroLimitSession :=
  ⟨Or.inr ⟨_, rfl, rfl⟩, Or.inl rfl, "10.0.0.1", 27015, "secret", rfl, rfl, rfl, rfl⟩

theorem bigLimit_connects : Connects bigLimitEnv none bigLimitSession :=
  ⟨Or.inr ⟨_, rfl, rfl⟩, Or.inl rfl, "10.0.0.1", 27015, "secret", rfl, rfl, rfl, rfl⟩

theorem timelimit_response_sets_timeleft_witness :
    (∃ info tr, attemptRconFetch demoEnv none [] = (.ok info, tr) ∧
      info.timeleft =
        some (if 20 = 0 then "No timelimit" else Nat.repr 20 ++ " minutes (timelimit)")) ∧
    (∃ info tr, attemptRconFetch zeroLimitEnv none [] = (.ok info, tr) ∧
      info.timeleft =
        some (if 0 = 0 then "No timelimit" else Nat.repr 0 ++ " minutes (timelimit)")) :=
  ⟨timelimit_response_sets_timeleft demoEnv none demoSession 20 5 "sm_cvar mp_timelimit"
      demo_connects (by decide) rfl rfl rfl,
   timelimit_response_sets_timeleft zeroLimitEnv none zeroLimitSession 0 7 "mp_timelimit"
      zeroLimit_connects (by decide) rfl rfl rfl⟩

/-- C3, as stated, fails at `N = 2 ^ 53 + 1 = 9007199254740993`: the console connection is
established, the response to the eighth command is the text `"mp_timelimit" = "N"`, no
time-left was obtained before, and the time-left returned is
`9007199254740992 minutes (timelimit)`, which is not `N minutes (timelimit)`. -/
theorem timelimit_above_double_precision :
    Connects bigLimitEnv none bigLimitSession ∧
    tryCommands[7]? = some "mp_timelimit" ∧
    bigLimitSession.send "mp_timelimit" =
      .ok (some ("\"mp_timelimit\" = \"" ++ Nat.repr 9007199254740993 ++ "\"")) ∧
    truthy (resultsAfter bigLimitSession (tryCommands.take 7) {}).timeleft = false ∧
    (attemptRconFetch bigLimitEnv none []).1 =
      .ok { timeleft := some "9007199254740992 minutes (timelimit)" } ∧
    (some "9007199254740992 minutes (timelimit)" : Option String) ≠
      some (if 9007199254740993 = 0 then "No timelimit"
        else Nat.repr 9007199254740993 ++ " minutes (timelimit)") :=
  ⟨bigLimit_connects, rfl, rfl, rfl, rfl, by decide⟩

/-- When the presenter returns a message, the stale-id path works as specified: the id is
cleared from the state and from the state file before the first cycle, and the first cycle
sends a new message whose id is then held by both. -/
theorem updater_recovers_when_presenter_returns (env : BotEnv) (st : UpdaterState)
    (um : UpdateMessageConfig) (channel : Channel) (cid id : String) (embed : Embed)
    (m : Message) (res : StatusRecord) (rconInfo : ConsoleInfo)
    (hum : env.config.updateMessage = some um) (hen : um.enabled = true)
    (hcid : um.channelId = some cid) (hcid0 : truthy (some cid) = true)
    (hch : env.fetchChannel cid = some channel)
    (hid : st.messageId = some id) (hid0 : truthy (some id) = true)
    (hgone : channel.fetchMessage id = none)
    (hfetch : fetchStatus env (orStr (env.config.defaultServer.bind (·.host)) "127.0.0.1")
      (orPort (env.config.defaultServer.bind (·.port)) 27015) = .ok (res, rconInfo))
    (hembed : buildEmbedFromResult env.builder (orStr (env.config.defaultServer.bind (·.host)) "127.0.0.1")
      (orPort (env.config.defaultServer.bind (·.port)) 27015) res rconInfo = .ok embed)
    (hsend : channel.send embed = .ok m) :
    (recoverMessage um channel st).messageId = none ∧
    (recoverMessage um channel st).file = none ∧
    startUpdater env st =
      .ok { messageId := some m.id, file := some m.id, msg := some m,
            sent := st.sent ++ [embed], edited := st.edited, timer := true } := by
  have hrec : recoverMessage um channel st =
      { st with messageId := none, file := none, msg := none } := by
    simp [recoverMessage, hid, hid0, hgone]
  refine ⟨by rw [hrec], by rw [hrec], ?_⟩
  simp [startUpdater, hum, hen, hcid, hcid0, hch, hrec, updateOnce, hfetch, hembed, hsend]

/-- C7. The failing input: the persisted state names a message that the channel no longer
has, the query service is unreachable, and the console supplies a next-map only.  The id is
cleared from the state and from the state file before the first cycle, but in that cycle,
whatever the message builder, the presenter raises a `TypeError` outside the `try` of
`updateOnce`: no message is sent and the error leaves `startUpdater`. -/
theorem updater_raises_after_stale_id (builder : EmbedBuilder) :
    (recoverMessage staleUpdateConfig staleChannel staleState).messageId = none ∧
    (recoverMessage staleUpdateConfig staleChannel staleState).file = none ∧
    startUpdater (staleEnv builder) staleState =
      .error (.typeError "Cannot read properties of undefined (reading 'timeleft')") :=
  ⟨rfl, rfl, rfl⟩

/-- The same stale state with the console library not loaded: the first cycle presents the
offline message, sends it as a new message, and the state and the state file hold its id. -/
theorem updater_recovers_without_console :
    (startUpdater { staleEnv discordBuilder with rconLib := .missing } staleState).toOption.map
      (fun st => (st.messageId, st.file, st.sent.length, st.edited.length, st.timer)) =
      some (some "999", some "999", 1, 0, true) :=
  rfl

end DodBot
